import Mathlib

/-!
# Formal model of the pysarts atmospheric-correction core

This file gives a shallow embedding, over the rationals, of the core of
`src/pysarts/corrections.py`: the zenith-delay integrator
(`_calculate_zenith_delay_jit` / `calculate_era_zenith_delay`), the global
pressure-level search (`optim_era_delay` / `_optim_era_delay`) and the
patch-based greedy search (`patches_era_delay` / `_optimise_zenith_delay`),
together with theorems settling the specification claims about them.

Conventions of the embedding:
* numpy floating-point arrays become total functions `ℕ → ℕ → ℚ`
  (respectively `ℕ → ℕ → ℕ → ℚ` for the 3-D profile arrays); the array
  extents are carried separately where an operation needs them.
* `np.nan` written into the pressure-level output matrices is modelled by
  `Option ℚ` with `none` standing for NaN.
* `np.inf` (the initial best-so-far standard deviation) is modelled by
  `(⊤ : WithTop ℚ)`.
* numpy's `.std()` is the square root of the population variance.  Square
  roots of rationals are irrational, so the embedding records and compares
  the *squared* standard deviation (the variance) everywhere.  `Real.sqrt`
  is strictly monotone on nonnegatives, so every comparison `std a < std b`
  or `std a ≤ std b` or `std a = std b` performed by the source holds iff
  the corresponding comparison of the variances holds; nothing else is done
  with the std values.
* the collaborator modules `era`, `geogrid`, `insar`, `util` and the
  library function `skimage.util.view_as_windows` are imported by
  `corrections.py` but are not part of the repository snapshot under
  `src/`; the definitions standing in for them below are modelled from the
  specification and carry a doc comment saying so.
* `look_angle` only ever enters through `1 / cos(look_angle)`
  (`zenith2slant`); since the cosine of a rational is irrational the
  embedding passes that secant factor directly as a rational parameter
  `secLook`.
-/

namespace Pysarts

/-- A two-dimensional rational-valued field (a numpy 2-D array), indexed
(lat index, lon index). -/
abbrev Mat : Type := ℕ → ℕ → ℚ

/-- A three-dimensional field (a numpy 3-D array), indexed
(lat index, lon index, pressure-level index). -/
abbrev Prof : Type := ℕ → ℕ → ℕ → ℚ

/-! ## Constants of `_calculate_zenith_delay_jit` (Hanssen 2001) -/

/-- Refractivity constant `k1 = 0.776` (K Pa⁻¹). -/
def k1 : ℚ := 0.776

/-- Refractivity constant `k2 = 0.716` (K Pa⁻¹). -/
def k2 : ℚ := 0.716

/-- Refractivity constant `k3 = 3.75e3` (K² Pa⁻¹). -/
def k3 : ℚ := 3.75 * 10 ^ 3

/-- Dry-air specific gas constant `Rd = 287.053`. -/
def Rd : ℚ := 287.053

/-- Water-vapour specific gas constant `Rv = 461.524`. -/
def Rv : ℚ := 461.524

/-- Number of points of the refined vertical sampling, `nheights = 1024`. -/
def nheights : ℕ := 1024

/-! ## Spec-modelled numerical helpers (`util.py` is not under `src/`) -/

/-- Modelled from the spec: `util.interp1d_jit` is not under `src/`; the
spec (§4.1) prescribes linear interpolation of a column onto the refined
sampling.  One-dimensional piecewise-linear interpolation of the data
points `(xs i, ys i)`, with the query clamped to the end values outside
the range of `xs` (numpy-style interpolation). -/
def interp1d : List ℚ → List ℚ → ℚ → ℚ
  | x₁ :: x₂ :: xs, y₁ :: y₂ :: ys, t =>
    if t ≤ x₁ then y₁
    else if t ≤ x₂ then y₁ + (y₂ - y₁) * (t - x₁) / (x₂ - x₁)
    else interp1d (x₂ :: xs) (y₂ :: ys) t
  | [_], y :: _, _ => y
  | _, _, _ => 0

/-- Embeds `np.linspace a b n`: `n` evenly spaced samples from `a` to `b`,
endpoints included. -/
def linspace (a b : ℚ) (n : ℕ) : List ℚ :=
  (List.range n).map fun i : ℕ => a + (b - a) * (i : ℚ) / ((n - 1 : ℕ) : ℚ)

/-- Modelled from the spec: `util.trapz` is not under `src/`; the spec
(§4.1) prescribes the trapezoidal rule.  `trapz xs ys` integrates the
samples `ys` against the abscissae `xs`. -/
def trapz : List ℚ → List ℚ → ℚ
  | x₁ :: x₂ :: xs, y₁ :: y₂ :: ys =>
    (x₂ - x₁) * (y₁ + y₂) / 2 + trapz (x₂ :: xs) (y₂ :: ys)
  | _, _ => 0

/-- The column of a 3-D profile array above grid cell `(y, x)`, as a list
over the `nl` pressure levels (`arr[y, x, :]`). -/
def profCol (nl : ℕ) (P : Prof) (y x : ℕ) : List ℚ :=
  (List.range nl).map (P y x)

/-! ## The zenith-delay integrator (`_calculate_zenith_delay_jit`) -/

/-- The body of the per-cell loop of `_calculate_zenith_delay_jit`
(src/pysarts/corrections.py:446-462): build the 1024-point vertical
sampling from the surface elevation `h` to 15000 m, interpolate the
column's temperature, partial pressure of water vapour and pressure onto
it (converting the pressures from hPa to Pa, `*= 100`), form the wet and
dry refractivities, integrate by the trapezoidal rule and scale by
`10⁻⁶ · 100` to centimetres.  Returns `(wet, dry)` for the cell. -/
def zenithDelayCell (h : ℚ) (heights temps ppwvs pressures : List ℚ) : ℚ × ℚ :=
  let new_heights := linspace h 15000 nheights
  let itemp := new_heights.map (interp1d heights temps)
  let ippwv := new_heights.map fun t => interp1d heights ppwvs t * 100
  let ipressure := new_heights.map fun t => interp1d heights pressures t * 100
  let wet_refract := List.zipWith
    (fun e T => (k2 - k1 * Rd / Rv) * (e / T) + k3 * e / T ^ 2) ippwv itemp
  let dry_refract := List.zipWith (fun p T => k1 * p / T) ipressure itemp
  ((1 / 1000000) * trapz new_heights wet_refract * 100,
   (1 / 1000000) * trapz new_heights dry_refract * 100)

/-- The function `_calculate_zenith_delay_jit` (src/pysarts/corrections.py:401-462):
fills the wet and dry delay matrices cell by cell; here the two output
matrices are returned instead of written through `out` parameters. -/
def _calculate_zenith_delay_jit (nl : ℕ) (dem : Mat)
    (height temp ppwv pressure : Prof) : Mat × Mat :=
  (fun y x => (zenithDelayCell (dem y x) (profCol nl height y x)
      (profCol nl temp y x) (profCol nl ppwv y x) (profCol nl pressure y x)).1,
   fun y x => (zenithDelayCell (dem y x) (profCol nl height y x)
      (profCol nl temp y x) (profCol nl ppwv y x) (profCol nl pressure y x)).2)

/-! ## The weather model (`era.ERAModel` is not under `src/`) -/

/-- Modelled from the spec: `era.ERAModel` is not under `src/`.  The spec
(§3, AtmosphericProfile) gives per-cell vertical profiles of pressure,
temperature, relative humidity and geopotential height at a fixed set of
pressure levels (the grid axes and the acquisition date play no role in
any claim and are omitted). -/
structure ERAModel where
  rel_hum : Prof
  temp : Prof
  geopot : Prof
  pressure : Prof

/-- Modelled from the spec: the profile's derived `height` attribute
(§3 "geopotential_height, derived height"); the geopotential height is
already in metres, so the derived height is taken to be it. -/
def ERAModel.height (m : ERAModel) : Prof := m.geopot

/-- Modelled from the spec: a constant saturation vapour pressure (hPa)
used to derive the partial pressure of water vapour from the relative
humidity; the spec names the derived quantity but gives no formula. -/
def satVapour : ℚ := 6.1078

/-- Modelled from the spec: the profile's derived
`partial_pressure_water_vapour` attribute (§3), taken as
`relative_humidity / 100` times the saturation vapour pressure. -/
def ERAModel.ppwv (m : ERAModel) : Prof :=
  fun y x l => m.rel_hum y x l * satVapour / 100

/-- Modelled from the spec: the humidity update performed by
`ERAModel.add_rainfall` (not under `src/`); per the spec (§2, §Glossary)
it "blends rainfall-derived humidity into the profile above a given
pressure threshold": at every cell where rainfall is present, the
relative humidity of every level whose pressure lies between the
threshold `plevel` and the lower bound `lower` is raised by `amount`,
capped at saturation (100 %). -/
def injectHum (hum pressure : Prof) (rain : Mat) (plevel lower amount : ℚ) : Prof :=
  fun y x l =>
    if 0 < rain y x ∧ plevel ≤ pressure y x l ∧ pressure y x l ≤ lower then
      min (hum y x l + amount) 100
    else hum y x l

/-- Modelled from the spec: `ERAModel.add_rainfall rain plevel lower amount`
mutates the model's relative humidity by `injectHum`; the embedding
returns the updated model. -/
def ERAModel.add_rainfall (m : ERAModel) (rain : Mat) (plevel lower amount : ℚ) :
    ERAModel :=
  { m with rel_hum := injectHum m.rel_hum m.pressure rain plevel lower amount }

/-- The function `calculate_era_zenith_delay` (src/pysarts/corrections.py:347-390):
wet and dry one-way zenith delay fields of a weather model over a DEM
(the grid-size agreement demanded by the `GridMismatch` check is implicit
in this embedding, which carries no axis arrays).  Returns `(wet, dry)`;
the total field of the source is their pointwise sum. -/
def calculate_era_zenith_delay (m : ERAModel) (nl : ℕ) (dem : Mat) : Mat × Mat :=
  _calculate_zenith_delay_jit nl dem m.height m.temp m.ppwv m.pressure

/-- Modelled from the spec: `insar.SAR.zenith2slant` is not under `src/`;
the spec (§4.2) prescribes `slant = zenith / cos(look_angle)`.  The
secant factor `secLook = 1 / cos(look_angle)` is passed directly as a
rational. -/
def zenith2slant (d : Mat) (secLook : ℚ) : Mat := fun y x => d y x * secLook

/-! ## Residual statistics -/

/-- Sum of the entries of the leading `m × n` block of a field. -/
def matSum (m n : ℕ) (A : Mat) : ℚ :=
  ∑ y ∈ Finset.range m, ∑ x ∈ Finset.range n, A y x

/-- The population variance of the leading `m × n` block of a field:
the square of numpy's `.std()` (see the header note on standard
deviations). -/
def npVar (m n : ℕ) (A : Mat) : ℚ :=
  let mu := matSum m n A / ((m : ℚ) * (n : ℚ))
  matSum m n (fun y x => (A y x - mu) ^ 2) / ((m : ℚ) * (n : ℚ))

/-! ## The global pressure search (`optim_era_delay` / `_optim_era_delay`) -/

/-- One tested candidate of the global search, the dictionary
`{'master_p': …, 'slave_p': …, 'std': …}` returned by `_optim_era_delay`
(`stdSq` holds the squared standard deviation, see the header note). -/
structure CandidateResult where
  master_p : ℚ
  slave_p : ℚ
  stdSq : ℚ
  deriving DecidableEq

/-- The worker `_optim_era_delay` (src/pysarts/corrections.py:42-69): inject rainfall
into both models at the candidate thresholds, compute the wet/dry zenith
delays, project them to slant, difference the master and slave totals,
subtract from the interferogram and record the residual's standard
deviation.  The worker receives private copies of the models
(`multiprocessing.Pool` pickles every argument), so the mutation performed
by `add_rainfall` is local to the call; the embedding takes the models by
value accordingly. -/
def _optim_era_delay (m n nl : ℕ) (dem ifg : Mat) (mmodel smodel : ERAModel)
    (mwr swr : Mat) (master_min_plevel slave_min_plevel : ℚ) (secLook : ℚ) :
    CandidateResult :=
  let mmodel' := mmodel.add_rainfall mwr master_min_plevel 1000 10
  let smodel' := smodel.add_rainfall swr slave_min_plevel 1000 10
  let md := calculate_era_zenith_delay mmodel' nl dem
  let sd := calculate_era_zenith_delay smodel' nl dem
  let mwet := zenith2slant md.1 secLook
  let mdry := zenith2slant md.2 secLook
  let swet := zenith2slant sd.1 secLook
  let sdry := zenith2slant sd.2 secLook
  let ifg_total : Mat := fun y x => (mwet y x + mdry y x) - (swet y x + sdry y x)
  let corrected_ifg : Mat := fun y x => ifg y x - ifg_total y x
  { master_p := master_min_plevel, slave_p := slave_min_plevel,
    stdSq := npVar m n corrected_ifg }

/-- Embeds `np.nonzero(pcol == p)[0][0]`: the first index `i < nl` with
`pcol i = p`, or `none` (the `IndexError` branch) when there is none. -/
def findPLevelIdx (nl : ℕ) (pcol : ℕ → ℚ) (p : ℚ) : Option ℕ :=
  (List.range nl).find? fun i => decide (pcol i = p)

/-- The error signal the spec calls *LevelNotFound* (the source raises
`IndexError('Minimum pressure level could not be found in the weather
model')`). -/
def levelNotFound : String := "LevelNotFound"

/-- The function `optim_era_delay` (src/pysarts/corrections.py:18-39): look up the
index of `min_plevel` in the master model's level column, enumerate the
Cartesian product of the levels from the top of the column down to it
(inclusive) with itself, and evaluate `_optim_era_delay` on every pair;
each pool worker operates on its own pickled copy of the arguments. -/
def optim_era_delay (m n nl : ℕ) (dem ifg : Mat) (mmodel smodel : ERAModel)
    (mwr swr : Mat) (min_plevel : ℚ) (secLook : ℚ) :
    Except String (List CandidateResult) :=
  match findPLevelIdx nl (mmodel.pressure 0 0) min_plevel with
  | none => .error levelNotFound
  | some min_plevel_idx =>
    let plevels := (List.range (min_plevel_idx + 1)).map (mmodel.pressure 0 0)
    .ok ((plevels.product plevels).map fun q =>
      _optim_era_delay m n nl dem ifg mmodel smodel mwr swr q.1 q.2 secLook)

/-! ## The patch search (`patches_era_delay` / `_optimise_zenith_delay`) -/

/-- The inputs of `_optimise_zenith_delay`
(src/pysarts/corrections.py:228-230), bundled into a structure (the
source comments on its own signature: "UGLY FUNCTION SIGNATURE").
`p₁ × p₂` is the patch extent, `nl` the number of pressure levels;
`secLook` stands for `1 / cos(look_angle)` as explained in the header. -/
structure PatchInputs where
  p₁ : ℕ
  p₂ : ℕ
  nl : ℕ
  pdem : Mat
  pifg : Mat
  pmwr : Mat
  pswr : Mat
  pmtemp : Prof
  pmrel_hum : Prof
  pmpressure : Prof
  pmgeopot : Prof
  pstemp : Prof
  psrel_hum : Prof
  pspressure : Prof
  psgeopot : Prof
  secLook : ℚ
  min_plevel : ℚ

/-- Embeds `pmwr.sum() == 0` (src/pysarts/corrections.py:274). -/
def PatchInputs.no_master_rain (I : PatchInputs) : Bool :=
  decide (matSum I.p₁ I.p₂ I.pmwr = 0)

/-- Embeds `pswr.sum() == 0` (src/pysarts/corrections.py:275). -/
def PatchInputs.no_slave_rain (I : PatchInputs) : Bool :=
  decide (matSum I.p₁ I.p₂ I.pswr = 0)

/-- The master-patch `ERAModel` object (`pmmodel_obj`,
src/pysarts/corrections.py:253-254) with the given humidity state. -/
def mModelWith (I : PatchInputs) (hum : Prof) : ERAModel :=
  { rel_hum := hum, temp := I.pmtemp, geopot := I.pmgeopot, pressure := I.pmpressure }

/-- The slave-patch `ERAModel` object (`psmodel_obj`,
src/pysarts/corrections.py:255-256) with the given humidity state. -/
def sModelWith (I : PatchInputs) (hum : Prof) : ERAModel :=
  { rel_hum := hum, temp := I.pstemp, geopot := I.psgeopot, pressure := I.pspressure }

/-- The six output fields of the patch optimiser (and, at full-grid size,
of `patches_era_delay`): wet/dry delays for both dates plus the two
pressure-level maps (`none` models the NaN fill). -/
structure DelayOutputs where
  pmwet : Mat
  pmdry : Mat
  pswet : Mat
  psdry : Mat
  pm_plevels : ℕ → ℕ → Option ℚ
  ps_plevels : ℕ → ℕ → Option ℚ

/-- The state threaded through the trial loop of
`_optimise_zenith_delay`.  `callerHumM`/`callerHumS` are the humidity
arrays owned by the caller (the views `pmrel_hum` / `psrel_hum`);
`objHumM`/`objHumS` are the humidity slots of the two local `ERAModel`
objects, where `none` means the slot still references the caller's array
(as right after construction, lines 253-256) and `some h` means it holds
a private copy `h` (as after the per-trial reset, lines 299-300). -/
structure OptimState where
  callerHumM : Prof
  callerHumS : Prof
  objHumM : Option Prof
  objHumS : Option Prof
  outputs : DelayOutputs
  max_std : WithTop ℚ

/-- The humidity an `ERAModel` object reads: its own copy if it holds
one, otherwise the caller's array it references. -/
def objRelHum (caller : Prof) (obj : Option Prof) : Prof := obj.getD caller

/-- The master model object's `add_rainfall` as a state mutation
(src/pysarts/corrections.py:304): the humidity update lands on the
object's private copy when it holds one, and on the caller's array when
the object still references it. -/
def objAddRainfallM (I : PatchInputs) (s : OptimState) (plevel : ℚ) : OptimState :=
  match s.objHumM with
  | some h => { s with objHumM := some (injectHum h I.pmpressure I.pmwr plevel 1000 10) }
  | none => { s with callerHumM := injectHum s.callerHumM I.pmpressure I.pmwr plevel 1000 10 }

/-- The slave model object's `add_rainfall` as a state mutation
(src/pysarts/corrections.py:306). -/
def objAddRainfallS (I : PatchInputs) (s : OptimState) (plevel : ℚ) : OptimState :=
  match s.objHumS with
  | some h => { s with objHumS := some (injectHum h I.pspressure I.pswr plevel 1000 10) }
  | none => { s with callerHumS := injectHum s.callerHumS I.pspressure I.pswr plevel 1000 10 }

/-- The result of evaluating one candidate pair: the four zenith delay
fields, the two recorded levels (`none` = NaN when that side had no
rainfall) and the residual variance. -/
structure TrialCand where
  mwet : Mat
  mdry : Mat
  swet : Mat
  sdry : Mat
  mpl : Option ℚ
  spl : Option ℚ
  var : ℚ

/-- The evaluation part of the trial-loop body
(src/pysarts/corrections.py:309-336) given the humidity the two model
objects currently hold: zenith delays, slant projection, interferometric
total, corrected residual and its variance, plus the levels that would be
recorded for the trial `t = (pm_idx, ps_idx)`. -/
def trialScore (I : PatchInputs) (humM humS : Prof) (t : ℕ × ℕ) : TrialCand :=
  let md := calculate_era_zenith_delay (mModelWith I humM) I.nl I.pdem
  let sd := calculate_era_zenith_delay (sModelWith I humS) I.nl I.pdem
  let mwet_slant := zenith2slant md.1 I.secLook
  let mdry_slant := zenith2slant md.2 I.secLook
  let swet_slant := zenith2slant sd.1 I.secLook
  let sdry_slant := zenith2slant sd.2 I.secLook
  let ifg_total : Mat := fun y x =>
    (mwet_slant y x + mdry_slant y x) - (swet_slant y x + sdry_slant y x)
  let corrected_ifg : Mat := fun y x => I.pifg y x - ifg_total y x
  { mwet := md.1, mdry := md.2, swet := sd.1, sdry := sd.2,
    mpl := if I.no_master_rain then none else some (I.pmpressure 0 0 t.1),
    spl := if I.no_slave_rain then none else some (I.pspressure 0 0 t.2),
    var := npVar I.p₁ I.p₂ corrected_ifg }

/-- One iteration of the trial loop (src/pysarts/corrections.py:292-341):
reset both objects' humidity to fresh copies of the caller's arrays,
apply the rainfall injections where that date has rain, evaluate the
candidate, and accept it exactly when its residual standard deviation is
strictly below the best so far. -/
def step (I : PatchInputs) (s : OptimState) (t : ℕ × ℕ) : OptimState :=
  let s₁ : OptimState :=
    { s with objHumM := some s.callerHumM, objHumS := some s.callerHumS }
  let s₂ := if I.no_master_rain then s₁ else objAddRainfallM I s₁ (I.pmpressure 0 0 t.1)
  let s₃ := if I.no_slave_rain then s₂ else objAddRainfallS I s₂ (I.pspressure 0 0 t.2)
  let c := trialScore I (objRelHum s₃.callerHumM s₃.objHumM)
    (objRelHum s₃.callerHumS s₃.objHumS) t
  let accepted : DelayOutputs :=
    { pmwet := c.mwet, pmdry := c.mdry, pswet := c.swet, psdry := c.sdry,
      pm_plevels := fun _ _ => c.mpl, ps_plevels := fun _ _ => c.spl }
  if (c.var : WithTop ℚ) < s₃.max_std then
    { s₃ with outputs := accepted, max_std := (c.var : WithTop ℚ) }
  else s₃

/-- The wet/dry zenith delays of the pure (no-injection) weather-model
correction for the patch (`mwet_init`/`mdry_init`/`swet_init`/`sdry_init`,
src/pysarts/corrections.py:260-261).  At this point both model objects
still read the caller's original humidity arrays. -/
def initDelays (I : PatchInputs) : (Mat × Mat) × (Mat × Mat) :=
  (calculate_era_zenith_delay (mModelWith I I.pmrel_hum) I.nl I.pdem,
   calculate_era_zenith_delay (sModelWith I I.psrel_hum) I.nl I.pdem)

/-- The array `correction_init` (src/pysarts/corrections.py:262-263): the residual
of the pure weather-model correction (zenith delays, no slant
projection, exactly as in the source). -/
def correction_init (I : PatchInputs) : Mat := fun y x =>
  I.pifg y x - (((initDelays I).1.1 y x + (initDelays I).1.2 y x)
    - ((initDelays I).2.1 y x + (initDelays I).2.2 y x))

/-- The loop state before the first trial
(src/pysarts/corrections.py:239-270): outputs initialised to the pure
correction's delays with NaN level maps, best-so-far standard deviation
set to `np.inf` (the line computing `correction_init.std()` is commented
out in the source), and both model objects still referencing the
caller's humidity arrays. -/
def initState (I : PatchInputs) : OptimState :=
  let outs : DelayOutputs :=
    { pmwet := (initDelays I).1.1, pmdry := (initDelays I).1.2,
      pswet := (initDelays I).2.1, psdry := (initDelays I).2.2,
      pm_plevels := fun _ _ => none, ps_plevels := fun _ _ => none }
  { callerHumM := I.pmrel_hum, callerHumS := I.psrel_hum,
    objHumM := none, objHumS := none, outputs := outs, max_std := ⊤ }

/-- The candidate index pairs enumerated by the nested loops
(src/pysarts/corrections.py:277-293) given the index of `min_plevel`:
each side ranges from the top of the column (index 0, `max_plevel_idx`)
down to `min_plevel_idx`, restricted to the single index 0 when that side
has no rainfall; the nested `for` loops produce the row-major product. -/
def trialsList (I : PatchInputs) (min_plevel_idx : ℕ) : List (ℕ × ℕ) :=
  let master_min_plevel_idx := if I.no_master_rain then 0 else min_plevel_idx
  let slave_min_plevel_idx := if I.no_slave_rain then 0 else min_plevel_idx
  (List.range (master_min_plevel_idx + 1)).product
    (List.range (slave_min_plevel_idx + 1))

/-- The function `_optimise_zenith_delay` (src/pysarts/corrections.py:228-343): find
the index of `min_plevel` in the master patch's level column (else the
*LevelNotFound* error), then run the greedy trial loop from the
pure-correction initial state. -/
def _optimise_zenith_delay (I : PatchInputs) : Except String DelayOutputs :=
  match findPLevelIdx I.nl (I.pmpressure 0 0) I.min_plevel with
  | none => .error levelNotFound
  | some min_plevel_idx =>
    let final := (trialsList I min_plevel_idx).foldl (step I) (initState I)
    .ok final.outputs

/-! ## Window decomposition (`patches_era_delay`) -/

/-- The window of a 2-D array starting at offset `(oy, ox)`. -/
def subMat (oy ox : ℕ) (A : Mat) : Mat := fun i j => A (oy + i) (ox + j)

/-- The window of a 3-D profile array starting at `(oy, ox)`; the level
axis is windowed trivially (`[y, x, 0]` selects the whole column in the
source). -/
def subProf (oy ox : ℕ) (P : Prof) : Prof := fun i j l => P (oy + i) (ox + j) l

/-- The weather model restricted to the window at `(oy, ox)` (the
`ERAModel(...)` construction from window slices,
src/pysarts/corrections.py:170-179). -/
def subModel (m : ERAModel) (oy ox : ℕ) : ERAModel :=
  { rel_hum := subProf oy ox m.rel_hum, temp := subProf oy ox m.temp,
    geopot := subProf oy ox m.geopot, pressure := subProf oy ox m.pressure }

/-- Writing a `p₁ × p₂` patch of values into a full-grid array through
the overlapping window view at offset `(oy, ox)` (the aliased-view
assignments `pmwet[y, x, :, :] = …`, src/pysarts/corrections.py:188-193
and 213-218). -/
def writeWin {α : Type} (out : ℕ → ℕ → α) (oy ox p₁ p₂ : ℕ) (v : ℕ → ℕ → α) :
    ℕ → ℕ → α := fun i j =>
  if oy ≤ i ∧ i < oy + p₁ ∧ ox ≤ j ∧ j < ox + p₂ then v (i - oy) (j - ox)
  else out i j

/-- Modelled from the spec: the number of windows along one axis produced
by `skimage.util.view_as_windows` (skimage is an external library) for
axis length `L`, window `p` and step `s ≥ 1` is `(L - p) / s + 1`
(integer division; a trailing remainder is dropped, spec §3
"last partial window dropped"). -/
def nWindows (L p s : ℕ) : ℕ := (L - p) / s + 1

/-- The inputs of `patches_era_delay` (src/pysarts/corrections.py:72-73):
an `M × N` grid with `nl` pressure levels, patch size `(p₁, p₂)`;
`secLook` stands for `1 / cos(look_angle)`. -/
structure GridInputs where
  M : ℕ
  N : ℕ
  nl : ℕ
  dem : Mat
  ifg : Mat
  mmodel : ERAModel
  smodel : ERAModel
  mwr : Mat
  swr : Mat
  min_plevel : ℚ
  p₁ : ℕ
  p₂ : ℕ
  secLook : ℚ

/-- The arguments `_optimise_zenith_delay` receives for the window at
offset `(oy, ox)` (src/pysarts/corrections.py:199-212): window slices of
the DEM, interferogram and rainfall fields, and the per-window slices of
both models' profile arrays. -/
def patchInputsAt (G : GridInputs) (oy ox : ℕ) : PatchInputs :=
  { p₁ := G.p₁, p₂ := G.p₂, nl := G.nl,
    pdem := subMat oy ox G.dem, pifg := subMat oy ox G.ifg,
    pmwr := subMat oy ox G.mwr, pswr := subMat oy ox G.swr,
    pmtemp := subProf oy ox G.mmodel.temp,
    pmrel_hum := subProf oy ox G.mmodel.rel_hum,
    pmpressure := subProf oy ox G.mmodel.pressure,
    pmgeopot := subProf oy ox G.mmodel.geopot,
    pstemp := subProf oy ox G.smodel.temp,
    psrel_hum := subProf oy ox G.smodel.rel_hum,
    pspressure := subProf oy ox G.smodel.pressure,
    psgeopot := subProf oy ox G.smodel.geopot,
    secLook := G.secLook, min_plevel := G.min_plevel }

/-- Writing all six patch outputs through the window views at
`(oy, ox)`. -/
def writeOutputs (out : DelayOutputs) (oy ox p₁ p₂ : ℕ) (v : DelayOutputs) :
    DelayOutputs :=
  { pmwet := writeWin out.pmwet oy ox p₁ p₂ v.pmwet,
    pmdry := writeWin out.pmdry oy ox p₁ p₂ v.pmdry,
    pswet := writeWin out.pswet oy ox p₁ p₂ v.pswet,
    psdry := writeWin out.psdry oy ox p₁ p₂ v.psdry,
    pm_plevels := writeWin out.pm_plevels oy ox p₁ p₂ v.pm_plevels,
    ps_plevels := writeWin out.ps_plevels oy ox p₁ p₂ v.ps_plevels }

/-- The body of the per-patch loop of `patches_era_delay`
(src/pysarts/corrections.py:161-218) for the window with window indices
`w = (y, x)`: if both rainfall windows sum to zero, write the pure
weather-model correction of the window's sub-models and NaN level maps;
otherwise run `_optimise_zenith_delay` on the window and write its
outputs. -/
def stepWindow (G : GridInputs) (out : DelayOutputs) (w : ℕ × ℕ) :
    Except String DelayOutputs :=
  let oy := w.1 * (G.p₁ / 2)
  let ox := w.2 * (G.p₂ / 2)
  if matSum G.p₁ G.p₂ (subMat oy ox G.mwr) = 0
      ∧ matSum G.p₁ G.p₂ (subMat oy ox G.swr) = 0 then
    let md := calculate_era_zenith_delay (subModel G.mmodel oy ox) G.nl
      (subMat oy ox G.dem)
    let sd := calculate_era_zenith_delay (subModel G.smodel oy ox) G.nl
      (subMat oy ox G.dem)
    let v : DelayOutputs :=
      { pmwet := md.1, pmdry := md.2, pswet := sd.1, psdry := sd.2,
        pm_plevels := fun _ _ => none, ps_plevels := fun _ _ => none }
    .ok (writeOutputs out oy ox G.p₁ G.p₂ v)
  else
    (_optimise_zenith_delay (patchInputsAt G oy ox)).map fun o =>
      writeOutputs out oy ox G.p₁ G.p₂ o

/-- The output matrices as preallocated (src/pysarts/corrections.py:146-151):
`np.zeros` everywhere, including the two level maps (so a level value `0`,
not NaN, at pixels no window ever writes). -/
def initOutputs : DelayOutputs :=
  { pmwet := fun _ _ => 0, pmdry := fun _ _ => 0,
    pswet := fun _ _ => 0, psdry := fun _ _ => 0,
    pm_plevels := fun _ _ => some 0, ps_plevels := fun _ _ => some 0 }

/-- The row-major list of window indices traversed by `np.ndindex`
(src/pysarts/corrections.py:161). -/
def winsList (G : GridInputs) : List (ℕ × ℕ) :=
  (List.range (nWindows G.M G.p₁ (G.p₁ / 2))).product
    (List.range (nWindows G.N G.p₂ (G.p₂ / 2)))

/-- The function `patches_era_delay` (src/pysarts/corrections.py:72-224): divide the
grid into overlapping windows of size `(p₁, p₂)` with stride
`(p₁/2, p₂/2)` (integer division), process them in row-major order, and
assemble the outputs through the overlapping window views.
`view_as_windows` rejects a zero step or a window exceeding the array
(the `WindowShape` error); an exception inside any patch aborts the
whole call. -/
def patches_era_delay (G : GridInputs) : Except String DelayOutputs :=
  if G.p₁ / 2 = 0 ∨ G.p₂ / 2 = 0 ∨ G.M < G.p₁ ∨ G.N < G.p₂ then
    .error "WindowShape"
  else
    (winsList G).foldl (fun acc w => acc.bind fun out => stepWindow G out w)
      (.ok initOutputs)

/-! ## Definitions used by the analysis of the greedy loop -/

/-- The `DelayOutputs` record a candidate writes when it is accepted
(src/pysarts/corrections.py:330-335). -/
def candOutputs (c : TrialCand) : DelayOutputs :=
  { pmwet := c.mwet, pmdry := c.mdry, pswet := c.swet, psdry := c.sdry,
    pm_plevels := fun _ _ => c.mpl, ps_plevels := fun _ _ => c.spl }

/-- The greedy accept/reject update on the (outputs, best-so-far)
component of the loop state: accept exactly when the candidate's
residual standard deviation is strictly below the best so far. -/
def greedyStep (acc : DelayOutputs × WithTop ℚ) (c : TrialCand) :
    DelayOutputs × WithTop ℚ :=
  if (c.var : WithTop ℚ) < acc.2 then (candOutputs c, (c.var : WithTop ℚ)) else acc

/-- The evaluation of the trial `t` as a function of the *original*
humidity arrays: the per-trial reset followed by the rainfall injections
means every trial scores the models with humidity freshly derived from
`humM` / `humS`, independent of every other trial. -/
def trialEval (I : PatchInputs) (humM humS : Prof) (t : ℕ × ℕ) : TrialCand :=
  let humM' := if I.no_master_rain then humM
    else injectHum humM I.pmpressure I.pmwr (I.pmpressure 0 0 t.1) 1000 10
  let humS' := if I.no_slave_rain then humS
    else injectHum humS I.pspressure I.pswr (I.pspressure 0 0 t.2) 1000 10
  trialScore I humM' humS' t

/-- The reflection of a global-search record under the master/slave role
swap: the two levels exchanged, the standard deviation unchanged. -/
def CandidateResult.reflect (r : CandidateResult) : CandidateResult :=
  { master_p := r.slave_p, slave_p := r.master_p, stdSq := r.stdSq }

/-- Pixel `t` of an axis of length `L` is covered by at least one of the
windows of extent `p` and stride `s` that `view_as_windows` produces. -/
abbrev coveredAx (L p s t : ℕ) : Prop :=
  ∃ i < nWindows L p s, i * s ≤ t ∧ t < i * s + p

/-- Pixel `(i, j)` lies inside the window with window indices `w` of the
decomposition of `patches_era_delay` (the write condition of the
overlapping view assignment). -/
abbrev inWin (G : GridInputs) (w : ℕ × ℕ) (i j : ℕ) : Prop :=
  w.1 * (G.p₁ / 2) ≤ i ∧ i < w.1 * (G.p₁ / 2) + G.p₁
    ∧ w.2 * (G.p₂ / 2) ≤ j ∧ j < w.2 * (G.p₂ / 2) + G.p₂

/-! ## Concrete inputs used by counterexamples and witnesses -/

/-- A constant 2-D field. -/
def constMat (c : ℚ) : Mat := fun _ _ => c

/-- A constant 3-D field. -/
def constProf (c : ℚ) : Prof := fun _ _ _ => c

/-- A weather model that is constant in every variable: one single
pressure level at 1000 hPa, temperature 280 K, relative humidity 50 %,
geopotential height 0 m. -/
def flatModel : ERAModel :=
  { rel_hum := constProf 50, temp := constProf 280,
    geopot := constProf 0, pressure := constProf 1000 }

/-- A weather model with the three-level column `[1000, 800, 600]` hPa
(flat temperature 280 K, humidity 50 %, geopotential 0 m). -/
def threeLevelModel : ERAModel :=
  { rel_hum := constProf 50, temp := constProf 280, geopot := constProf 0,
    pressure := fun _ _ l => [1000, 800, 600].getD l 0 }

/-- Rainfall on the master date only, at the single cell `(0, 0)` of a
2 × 2 patch. -/
def cexRain : Mat := fun y x => if y = 0 ∧ x = 0 then 1 else 0

/-- The concrete rainy 2 × 2 patch used against claim C1: a single
1000 hPa pressure level (so exactly one candidate pair is tried), flat
temperature/humidity, zero DEM, zero interferogram, rainfall at one
master cell and none on the slave date, `secLook = 1` (zero look angle),
`min_plevel = 1000`. -/
def cexI : PatchInputs :=
  { p₁ := 2, p₂ := 2, nl := 1,
    pdem := constMat 0, pifg := constMat 0,
    pmwr := cexRain, pswr := constMat 0,
    pmtemp := constProf 280, pmrel_hum := constProf 50,
    pmpressure := constProf 1000, pmgeopot := constProf 0,
    pstemp := constProf 280, psrel_hum := constProf 50,
    pspressure := constProf 1000, psgeopot := constProf 0,
    secLook := 1, min_plevel := 1000 }

/-- The recorded outputs of the single candidate of `cexI`. -/
def cexOut : DelayOutputs :=
  candOutputs (trialEval cexI cexI.pmrel_hum cexI.psrel_hum (0, 0))

/-- The residual of the delay fields recorded for the `cexI` patch
(zenith fields; `secLook = 1` makes slant and zenith coincide). -/
def cexResidual (o : DelayOutputs) : Mat := fun y x =>
  cexI.pifg y x - ((o.pmwet y x + o.pmdry y x) - (o.pswet y x + o.psdry y x))

/-- The concrete grid used against claim C3: a 2 × 2 grid processed as a
single 2 × 2 patch, both rainfall fields identically zero, three-level
columns `[1000, 800, 600]` and the absent level `min_plevel = 550`. -/
def cexG3 : GridInputs :=
  { M := 2, N := 2, nl := 3, dem := constMat 0, ifg := constMat 0,
    mmodel := threeLevelModel, smodel := threeLevelModel,
    mwr := constMat 0, swr := constMat 0,
    min_plevel := 550, p₁ := 2, p₂ := 2, secLook := 1 }

/-- The concrete grid used against claim C9: a 10 × 10 grid with the odd
patch size 5 × 5 (so stride `5 / 2 = 2`); each dimension is an exact
multiple of the patch size, yet row 9 and column 9 belong to no window.
Rainfall is zero so every patch takes the short-circuit branch. -/
def cexG9 : GridInputs :=
  { M := 10, N := 10, nl := 1, dem := constMat 0, ifg := constMat 0,
    mmodel := flatModel, smodel := flatModel,
    mwr := constMat 0, swr := constMat 0,
    min_plevel := 1000, p₁ := 5, p₂ := 5, secLook := 1 }

/-! ## Basic facts about the numerical helpers -/

/-- Interpolating against a single data point yields its value
everywhere (the clamped end-value cases coincide). -/
lemma interp1d_singleton (x y t : ℚ) (ys : List ℚ) :
    interp1d [x] (y :: ys) t = y := rfl

/-- Linear interpolation of constant data is that constant. -/
lemma interp1d_map_const (c t x : ℚ) (xs : List ℚ) :
    interp1d (x :: xs) ((x :: xs).map fun _ => c) t = c := by
  induction xs generalizing x with
  | nil => rfl
  | cons x₂ xs ih =>
    simp only [List.map_cons, interp1d]
    split
    · rfl
    · split
      · ring
      · have := ih x₂
        simpa using this

/-- The trapezoidal rule applied to a constant integrand telescopes to
the constant times the total abscissa span. -/
lemma trapz_map_const (c a : ℚ) (xs : List ℚ) :
    trapz ((a :: xs)) ((a :: xs).map fun _ => c) = c * (xs.getLastD a - a) := by
  induction xs generalizing a with
  | nil => simp [trapz]
  | cons b xs ih =>
    have hb := ih b
    simp only [List.map_cons] at hb ⊢
    simp only [trapz, List.getLastD_cons]
    rw [hb]
    ring

/-- The list `linspace a b (k + 2)` starts at `a` and ends at `b`. -/
lemma linspace_shape (a b : ℚ) (k : ℕ) :
    ∃ tl : List ℚ, linspace a b (k + 2) = a :: tl ∧ tl.getLastD a = b := by
  have hsub : (k + 2 - 1 : ℕ) = k + 1 := rfl
  use (List.range (k + 1)).map
    (fun i => a + (b - a) * (((i + 1 : ℕ) : ℚ)) / (((k + 1 : ℕ) : ℚ)))
  constructor
  · unfold linspace
    rw [List.range_succ_eq_map]
    simp only [List.map_cons, List.map_map, Nat.cast_zero, mul_zero, zero_div,
      add_zero]
    congr 1
  · rw [List.range_succ, List.map_append]
    simp only [List.map_cons, List.map_nil]
    rw [List.getLastD_concat]
    have hk : (((k + 1 : ℕ) : ℚ)) ≠ 0 := by
      exact_mod_cast Nat.succ_ne_zero k
    field_simp

/-- Trapezoidal integration of a constant function over the refined
1024-point sampling from `h` to 15000 m is exact. -/
lemma trapz_linspace_const (h c : ℚ) :
    trapz (linspace h 15000 nheights)
      ((linspace h 15000 nheights).map fun _ => c) = c * (15000 - h) := by
  obtain ⟨tl, hsh, hlast⟩ := linspace_shape h 15000 1022
  rw [show nheights = 1022 + 2 by norm_num [nheights], hsh, trapz_map_const, hlast]

/-- Applying `zipWith` to two maps over the same list is the map of the combined
function. -/
lemma zipWith_map_same {α β γ δ : Type} (f : β → γ → δ) (g : α → β) (g' : α → γ)
    (l : List α) :
    List.zipWith f (l.map g) (l.map g') = l.map fun t => f (g t) (g' t) := by
  rw [List.zipWith_map, List.zipWith_same]

/-- Closed form of the per-cell integration for a column whose
interpolants are the constants `T` (temperature, K), `e` (partial
pressure of water vapour, hPa) and `P` (pressure, hPa): trapezoidal
integration of the constant refractivities over the sampling from `h` to
15000 m is exact, giving the analytic wet and dry delays. -/
theorem zenithDelayCell_const (h T e P : ℚ)
    (heights temps ppwvs pressures : List ℚ)
    (hT : ∀ t, interp1d heights temps t = T)
    (he : ∀ t, interp1d heights ppwvs t = e)
    (hP : ∀ t, interp1d heights pressures t = P) :
    zenithDelayCell h heights temps ppwvs pressures =
      ((1 / 1000000) * ((k2 - k1 * Rd / Rv) * (100 * e / T)
          + k3 * (100 * e) / T ^ 2) * (15000 - h) * 100,
       (1 / 1000000) * (k1 * (100 * P) / T) * (15000 - h) * 100) := by
  have h1 : interp1d heights temps = fun _ => T := funext hT
  have h2 : (fun t => interp1d heights ppwvs t * 100) = fun _ => e * 100 :=
    funext fun t => by rw [he t]
  have h3 : (fun t => interp1d heights pressures t * 100) = fun _ => P * 100 :=
    funext fun t => by rw [hP t]
  simp only [zenithDelayCell, h1, h2, h3]
  rw [zipWith_map_same, zipWith_map_same]
  rw [show (fun t : ℚ => (k2 - k1 * Rd / Rv) * (e * 100 / T) + k3 * (e * 100) / T ^ 2)
      = fun _ : ℚ => (k2 - k1 * Rd / Rv) * (e * 100 / T) + k3 * (e * 100) / T ^ 2 from rfl,
    show (fun t : ℚ => k1 * (P * 100) / T) = fun _ : ℚ => k1 * (P * 100) / T from rfl]
  rw [trapz_linspace_const, trapz_linspace_const]
  simp only [Prod.mk.injEq]
  constructor <;> ring

/-- The wet and dry delays of a one-level model: the column lists are
singletons, so all three interpolants are constant and
`zenithDelayCell_const` applies with `T`, `e`, `P` read off the single
level. -/
lemma calc_one_level (m : ERAModel) (dem : Mat) (y x : ℕ) :
    (calculate_era_zenith_delay m 1 dem).1 y x =
      (1 / 1000000) * ((k2 - k1 * Rd / Rv)
          * (100 * (m.rel_hum y x 0 * satVapour / 100) / m.temp y x 0)
        + k3 * (100 * (m.rel_hum y x 0 * satVapour / 100)) / (m.temp y x 0) ^ 2)
        * (15000 - dem y x) * 100
    ∧ (calculate_era_zenith_delay m 1 dem).2 y x =
      (1 / 1000000) * (k1 * (100 * m.pressure y x 0) / m.temp y x 0)
        * (15000 - dem y x) * 100 := by
  have key := zenithDelayCell_const (dem y x) (m.temp y x 0)
    (m.rel_hum y x 0 * satVapour / 100) (m.pressure y x 0)
    (profCol 1 m.height y x) (profCol 1 m.temp y x)
    (profCol 1 m.ppwv y x) (profCol 1 m.pressure y x)
    (fun t => interp1d_singleton (m.height y x 0) (m.temp y x 0) t [])
    (fun t => interp1d_singleton (m.height y x 0) (m.ppwv y x 0) t [])
    (fun t => interp1d_singleton (m.height y x 0) (m.pressure y x 0) t [])
  unfold calculate_era_zenith_delay _calculate_zenith_delay_jit
  constructor
  · show (zenithDelayCell (dem y x) (profCol 1 m.height y x) (profCol 1 m.temp y x)
      (profCol 1 m.ppwv y x) (profCol 1 m.pressure y x)).1 = _
    rw [key]
  · show (zenithDelayCell (dem y x) (profCol 1 m.height y x) (profCol 1 m.temp y x)
      (profCol 1 m.ppwv y x) (profCol 1 m.pressure y x)).2 = _
    rw [key]

/-! ## Analysis of the greedy trial loop -/

/-- One loop iteration in terms of the caller's humidity: the reset
(lines 299-300) makes both injections land on private copies of the
caller's arrays, so the caller's humidity is untouched, the objects end
the iteration holding humidity freshly derived from the caller's
originals, and the outputs/best-so-far component evolves by the greedy
update applied to the trial evaluated from the originals. -/
lemma step_spec (I : PatchInputs) (s : OptimState) (t : ℕ × ℕ) :
    step I s t =
      { callerHumM := s.callerHumM, callerHumS := s.callerHumS,
        objHumM := some (if I.no_master_rain then s.callerHumM
          else injectHum s.callerHumM I.pmpressure I.pmwr (I.pmpressure 0 0 t.1) 1000 10),
        objHumS := some (if I.no_slave_rain then s.callerHumS
          else injectHum s.callerHumS I.pspressure I.pswr (I.pspressure 0 0 t.2) 1000 10),
        outputs := (greedyStep (s.outputs, s.max_std)
          (trialEval I s.callerHumM s.callerHumS t)).1,
        max_std := (greedyStep (s.outputs, s.max_std)
          (trialEval I s.callerHumM s.callerHumS t)).2 } := by
  cases hm : I.no_master_rain <;> cases hs : I.no_slave_rain <;>
    simp only [step, trialEval, greedyStep, objAddRainfallM, objAddRainfallS,
      objRelHum, hm, hs, if_true, if_false, Bool.false_eq_true, Option.getD_some,
      Bool.true_eq_false, ite_true, ite_false] <;>
    split_ifs <;> rfl

/-- Folding the trial loop: the caller's humidity arrays survive
unchanged, and the outputs/best-so-far pair equals the greedy fold over
the trials evaluated from the caller's original humidity. -/
lemma foldl_step_spec (I : PatchInputs) (ts : List (ℕ × ℕ)) (s : OptimState) :
    (ts.foldl (step I) s).callerHumM = s.callerHumM ∧
    (ts.foldl (step I) s).callerHumS = s.callerHumS ∧
    ((ts.foldl (step I) s).outputs, (ts.foldl (step I) s).max_std)
      = (ts.map (trialEval I s.callerHumM s.callerHumS)).foldl greedyStep
          (s.outputs, s.max_std) := by
  induction ts generalizing s with
  | nil => exact ⟨rfl, rfl, rfl⟩
  | cons t ts ih =>
    simp only [List.foldl_cons, List.map_cons]
    obtain ⟨h1, h2, h3⟩ := ih (step I s t)
    refine ⟨?_, ?_, ?_⟩
    · rw [h1, step_spec]
    · rw [h2, step_spec]
    · rw [h3, step_spec]

/-- The best-so-far value after the greedy fold is the minimum of the
initial value and all candidate variances. -/
lemma greedy_foldl_snd (cs : List TrialCand) (o : DelayOutputs) (b : WithTop ℚ) :
    (cs.foldl greedyStep (o, b)).2
      = cs.foldl (fun a c => min a ((c.var : WithTop ℚ))) b := by
  induction cs generalizing o b with
  | nil => rfl
  | cons c cs ih =>
    simp only [List.foldl_cons, greedyStep]
    split_ifs with h
    · rw [ih]
      congr 1
      exact (min_eq_right h.le).symm
    · rw [ih]
      congr 1
      exact (min_eq_left (not_lt.mp h)).symm

/-- The running minimum is below its initial value. -/
lemma foldl_min_le_init (cs : List TrialCand) (b : WithTop ℚ) :
    cs.foldl (fun a c => min a ((c.var : WithTop ℚ))) b ≤ b := by
  induction cs generalizing b with
  | nil => exact le_refl b
  | cons c cs ih => exact le_trans (ih _) (min_le_left _ _)

/-- The running minimum is below every candidate's variance. -/
lemma foldl_min_le_var (cs : List TrialCand) :
    ∀ (b : WithTop ℚ) (c : TrialCand), c ∈ cs →
      cs.foldl (fun a c => min a ((c.var : WithTop ℚ))) b ≤ (c.var : WithTop ℚ) := by
  induction cs with
  | nil =>
    intro b c hc
    cases hc
  | cons c' cs ih =>
    intro b c hc
    rcases List.mem_cons.mp hc with rfl | hmem
    · exact le_trans (foldl_min_le_init cs _) (min_le_right _ _)
    · exact ih _ _ hmem

/-- First-seen-minimum characterisation of the greedy fold: either no
candidate beats the initial best and the initial outputs survive, or the
fold lands on the first candidate attaining the overall minimum: its
variance is the final best, every candidate is at least it, and every
earlier candidate is strictly above it. -/
lemma greedy_foldl_spec (cs : List TrialCand) (o : DelayOutputs) (b : WithTop ℚ) :
    ((cs.foldl greedyStep (o, b)).2 = b ∧ (cs.foldl greedyStep (o, b)).1 = o
      ∧ ∀ c ∈ cs, ¬((c.var : WithTop ℚ) < b))
    ∨ ∃ k : ℕ, ∃ hk : k < cs.length,
        (cs.foldl greedyStep (o, b)).1 = candOutputs (cs.get ⟨k, hk⟩)
        ∧ (cs.foldl greedyStep (o, b)).2 = ((cs.get ⟨k, hk⟩).var : WithTop ℚ)
        ∧ ((cs.get ⟨k, hk⟩).var : WithTop ℚ) < b
        ∧ (∀ l : ℕ, ∀ hl : l < cs.length,
            (cs.foldl greedyStep (o, b)).2 ≤ ((cs.get ⟨l, hl⟩).var : WithTop ℚ))
        ∧ (∀ l : ℕ, ∀ hl : l < cs.length, l < k →
            (cs.foldl greedyStep (o, b)).2 < ((cs.get ⟨l, hl⟩).var : WithTop ℚ)) := by
  induction cs generalizing o b with
  | nil => exact Or.inl ⟨rfl, rfl, by simp⟩
  | cons c cs ih =>
    simp only [List.foldl_cons]
    by_cases hv : ((c.var : WithTop ℚ) < b)
    · have hg : greedyStep (o, b) c = (candOutputs c, (c.var : WithTop ℚ)) := by
        simp [greedyStep, hv]
      rw [hg]
      rcases ih (candOutputs c) (c.var : WithTop ℚ) with
        ⟨h2, h1, hall⟩ | ⟨k, hk, h1, h2, hlt, hle, hfirst⟩
      · refine Or.inr ⟨0, by simp, ?_, ?_, ?_, ?_, ?_⟩
        · exact h1
        · exact h2
        · exact hv
        · intro l hl
          cases l with
          | zero => exact le_of_eq h2
          | succ l =>
            rw [List.get_cons_succ, h2]
            exact not_lt.mp (hall _ (cs.get_mem _ _))
        · intro l hl hlk
          exact absurd hlk (Nat.not_lt_zero l)
      · refine Or.inr ⟨k + 1, by simpa using Nat.succ_lt_succ hk, ?_, ?_, ?_, ?_, ?_⟩
        · rw [List.get_cons_succ]
          exact h1
        · rw [List.get_cons_succ]
          exact h2
        · rw [List.get_cons_succ]
          exact lt_trans hlt hv
        · intro l hl
          cases l with
          | zero =>
            rw [h2]
            exact le_of_lt hlt
          | succ l =>
            rw [List.get_cons_succ]
            exact hle l (by simp at hl; omega)
        · intro l hl hlk
          cases l with
          | zero =>
            rw [h2]
            exact hlt
          | succ l =>
            rw [List.get_cons_succ]
            exact hfirst l (by simp at hl; omega) (by omega)
    · have hg : greedyStep (o, b) c = (o, b) := by
        simp [greedyStep, hv]
      rw [hg]
      rcases ih o b with ⟨h2, h1, hall⟩ | ⟨k, hk, h1, h2, hlt, hle, hfirst⟩
      · refine Or.inl ⟨h2, h1, ?_⟩
        intro c' hc'
        rcases List.mem_cons.mp hc' with rfl | hmem
        · exact hv
        · exact hall c' hmem
      · have hb : b ≤ (c.var : WithTop ℚ) := not_lt.mp hv
        refine Or.inr ⟨k + 1, by simpa using Nat.succ_lt_succ hk, ?_, ?_, ?_, ?_, ?_⟩
        · rw [List.get_cons_succ]
          exact h1
        · rw [List.get_cons_succ]
          exact h2
        · rw [List.get_cons_succ]
          exact hlt
        · intro l hl
          cases l with
          | zero =>
            rw [h2]
            exact le_of_lt (lt_of_lt_of_le hlt hb)
          | succ l =>
            rw [List.get_cons_succ]
            exact hle l (by simp at hl; omega)
        · intro l hl hlk
          cases l with
          | zero =>
            rw [h2]
            exact lt_of_lt_of_le hlt hb
          | succ l =>
            rw [List.get_cons_succ]
            exact hfirst l (by simp at hl; omega) (by omega)

/-- The residual variance is invariant under pointwise negation. -/
lemma npVar_neg (m n : ℕ) (A : Mat) :
    npVar m n (fun y x => -A y x) = npVar m n A := by
  have h1 : matSum m n (fun y x => -A y x) = -matSum m n A := by
    unfold matSum
    rw [← Finset.sum_neg_distrib]
    apply Finset.sum_congr rfl
    intro y _
    rw [← Finset.sum_neg_distrib]
  unfold npVar
  simp only [h1, neg_div]
  congr 1
  unfold matSum
  apply Finset.sum_congr rfl
  intro y _
  apply Finset.sum_congr rfl
  intro x _
  ring

/-! ## Window plumbing facts -/

/-- Window sums of an identically-zero rainfall field vanish. -/
lemma matSum_sub_zero (p₁ p₂ oy ox : ℕ) :
    matSum p₁ p₂ (subMat oy ox (constMat 0)) = 0 := by
  simp [matSum, subMat, constMat]

/-- With both rainfall fields identically zero every window takes the
short-circuit branch: the step succeeds, and pixels outside the window
keep their previous values. -/
lemma stepWindow_no_rain (G : GridInputs) (hm : G.mwr = constMat 0)
    (hs : G.swr = constMat 0) (out : DelayOutputs) (w : ℕ × ℕ) :
    ∃ o, stepWindow G out w = .ok o ∧
      ∀ i j, ¬ inWin G w i j →
        o.pm_plevels i j = out.pm_plevels i j ∧ o.pmwet i j = out.pmwet i j := by
  unfold stepWindow
  rw [hm, hs, if_pos ⟨matSum_sub_zero _ _ _ _, matSum_sub_zero _ _ _ _⟩]
  refine ⟨_, rfl, ?_⟩
  intro i j hout
  have hout' : ¬(w.1 * (G.p₁ / 2) ≤ i ∧ i < w.1 * (G.p₁ / 2) + G.p₁
      ∧ w.2 * (G.p₂ / 2) ≤ j ∧ j < w.2 * (G.p₂ / 2) + G.p₂) := hout
  constructor <;> simp [writeOutputs, writeWin, hout']

/-- With both rainfall fields identically zero the whole window fold
succeeds, and pixels outside every window keep their initial values. -/
lemma fold_no_rain (G : GridInputs) (hm : G.mwr = constMat 0)
    (hs : G.swr = constMat 0) :
    ∀ (ws : List (ℕ × ℕ)) (out : DelayOutputs),
      ∃ o, ws.foldl (fun (acc : Except String DelayOutputs) w =>
            acc.bind fun o => stepWindow G o w) (Except.ok out) = .ok o ∧
        ∀ i j, (∀ w ∈ ws, ¬ inWin G w i j) →
          o.pm_plevels i j = out.pm_plevels i j ∧ o.pmwet i j = out.pmwet i j := by
  intro ws
  induction ws with
  | nil =>
    intro out
    exact ⟨out, rfl, fun i j _ => ⟨rfl, rfl⟩⟩
  | cons w ws ih =>
    intro out
    obtain ⟨o₁, ho₁, hpres₁⟩ := stepWindow_no_rain G hm hs out w
    obtain ⟨o, ho, hpres⟩ := ih o₁
    refine ⟨o, ?_, ?_⟩
    · simpa [List.foldl_cons, Except.bind, ho₁] using ho
    · intro i j hout
      have h1 := hpres₁ i j (hout w (List.mem_cons_self w ws))
      have h2 := hpres i j (fun w' hw' => hout w' (List.mem_cons_of_mem w hw'))
      exact ⟨h2.1.trans h1.1, h2.2.trans h1.2⟩

/-- Folding windows from an error state stays in that error state. -/
lemma fold_error (G : GridInputs) (e : String) :
    ∀ ws : List (ℕ × ℕ),
      ws.foldl (fun (acc : Except String DelayOutputs) w =>
          acc.bind fun o => stepWindow G o w) (Except.error e) = .error e := by
  intro ws
  induction ws with
  | nil => rfl
  | cons w ws ih => simpa [List.foldl_cons] using ih

/-- When `min_plevel` is absent from every column of the master model, a
window containing rainfall raises the *LevelNotFound* error. -/
lemma stepWindow_error_of_absent (G : GridInputs)
    (hlev : ∀ y x, findPLevelIdx G.nl (G.mmodel.pressure y x) G.min_plevel = none)
    (out : DelayOutputs) (w : ℕ × ℕ)
    (hrain : ¬(matSum G.p₁ G.p₂ (subMat (w.1 * (G.p₁ / 2)) (w.2 * (G.p₂ / 2)) G.mwr) = 0
      ∧ matSum G.p₁ G.p₂ (subMat (w.1 * (G.p₁ / 2)) (w.2 * (G.p₂ / 2)) G.swr) = 0)) :
    stepWindow G out w = .error levelNotFound := by
  unfold stepWindow
  rw [if_neg hrain]
  unfold _optimise_zenith_delay
  have : findPLevelIdx (patchInputsAt G (w.1 * (G.p₁ / 2)) (w.2 * (G.p₂ / 2))).nl
      ((patchInputsAt G (w.1 * (G.p₁ / 2)) (w.2 * (G.p₂ / 2))).pmpressure 0 0)
      (patchInputsAt G (w.1 * (G.p₁ / 2)) (w.2 * (G.p₂ / 2))).min_plevel
      = none := hlev _ _
  rw [this]
  rfl

/-- When `min_plevel` is absent and some window contains rainfall, the
whole patch fold aborts with *LevelNotFound* (windows before the first
rainy one are processed through the short-circuit branch, then the error
absorbs the rest of the fold). -/
lemma fold_error_of_rain (G : GridInputs)
    (hlev : ∀ y x, findPLevelIdx G.nl (G.mmodel.pressure y x) G.min_plevel = none) :
    ∀ (ws : List (ℕ × ℕ)) (out : DelayOutputs),
      (∃ w ∈ ws,
        ¬(matSum G.p₁ G.p₂ (subMat (w.1 * (G.p₁ / 2)) (w.2 * (G.p₂ / 2)) G.mwr) = 0
          ∧ matSum G.p₁ G.p₂ (subMat (w.1 * (G.p₁ / 2)) (w.2 * (G.p₂ / 2)) G.swr) = 0)) →
      ws.foldl (fun (acc : Except String DelayOutputs) w =>
          acc.bind fun o => stepWindow G o w) (Except.ok out)
        = .error levelNotFound := by
  intro ws
  induction ws with
  | nil =>
    intro out h
    obtain ⟨w, hw, _⟩ := h
    cases hw
  | cons w ws ih =>
    intro out h
    by_cases hr : matSum G.p₁ G.p₂ (subMat (w.1 * (G.p₁ / 2)) (w.2 * (G.p₂ / 2)) G.mwr) = 0
        ∧ matSum G.p₁ G.p₂ (subMat (w.1 * (G.p₁ / 2)) (w.2 * (G.p₂ / 2)) G.swr) = 0
    · have hok : stepWindow G out w
          = .ok (writeOutputs out (w.1 * (G.p₁ / 2)) (w.2 * (G.p₂ / 2)) G.p₁ G.p₂
            { pmwet := (calculate_era_zenith_delay
                (subModel G.mmodel (w.1 * (G.p₁ / 2)) (w.2 * (G.p₂ / 2))) G.nl
                (subMat (w.1 * (G.p₁ / 2)) (w.2 * (G.p₂ / 2)) G.dem)).1,
              pmdry := (calculate_era_zenith_delay
                (subModel G.mmodel (w.1 * (G.p₁ / 2)) (w.2 * (G.p₂ / 2))) G.nl
                (subMat (w.1 * (G.p₁ / 2)) (w.2 * (G.p₂ / 2)) G.dem)).2,
              pswet := (calculate_era_zenith_delay
                (subModel G.smodel (w.1 * (G.p₁ / 2)) (w.2 * (G.p₂ / 2))) G.nl
                (subMat (w.1 * (G.p₁ / 2)) (w.2 * (G.p₂ / 2)) G.dem)).1,
              psdry := (calculate_era_zenith_delay
                (subModel G.smodel (w.1 * (G.p₁ / 2)) (w.2 * (G.p₂ / 2))) G.nl
                (subMat (w.1 * (G.p₁ / 2)) (w.2 * (G.p₂ / 2)) G.dem)).2,
              pm_plevels := fun _ _ => none, ps_plevels := fun _ _ => none }) := by
        unfold stepWindow
        rw [if_pos hr]
      obtain ⟨w', hw', hrain'⟩ := h
      have hw'' : w' ∈ ws := by
        rcases List.mem_cons.mp hw' with rfl | hmem
        · exact absurd hr hrain'
        · exact hmem
      simp only [List.foldl_cons, Except.bind, hok]
      exact ih _ ⟨w', hw'', hrain'⟩
    · have herr := stepWindow_error_of_absent G hlev out w hr
      simp only [List.foldl_cons, Except.bind, herr]
      exact fold_error G levelNotFound ws

/-- The window sub-model's pure delay at a window pixel is the full
model's pure delay at the corresponding grid pixel (the integration is
per column). -/
lemma calc_sub (m : ERAModel) (nl : ℕ) (dem : Mat) (oy ox a b : ℕ) :
    (calculate_era_zenith_delay (subModel m oy ox) nl (subMat oy ox dem)).1 a b
        = (calculate_era_zenith_delay m nl dem).1 (oy + a) (ox + b)
      ∧ (calculate_era_zenith_delay (subModel m oy ox) nl (subMat oy ox dem)).2 a b
        = (calculate_era_zenith_delay m nl dem).2 (oy + a) (ox + b) := by
  exact ⟨rfl, rfl⟩

/-- Coverage of one axis when the window extent is even and divides the
axis length: every pixel lies in some window of extent `p` and stride
`p / 2`. -/
lemma coveredAx_even (L p t : ℕ) (h2 : 2 ∣ p) (hp : 0 < p) (hd : p ∣ L)
    (ht : t < L) : coveredAx L p (p / 2) t := by
  obtain ⟨c, rfl⟩ := h2
  obtain ⟨k, rfl⟩ := hd
  have hc : 0 < c := by omega
  have hs2 : 2 * c / 2 = c := by omega
  rw [hs2]
  rcases Nat.eq_zero_or_pos k with rfl | hk
  · simp at ht
  · obtain ⟨k, rfl⟩ : ∃ j, k = j + 1 := ⟨k - 1, by omega⟩
    have hLp : 2 * c * (k + 1) - 2 * c = 2 * c * k := by
      have h : 2 * c * (k + 1) = 2 * c * k + 2 * c := by ring
      omega
    have hdvd : (2 * c * (k + 1) - 2 * c) / c = 2 * k := by
      rw [hLp, show 2 * c * k = 2 * k * c by ring]
      exact Nat.mul_div_cancel _ hc
    by_cases hcase : t < 2 * c * k
    · refine ⟨t / c, ?_, ?_, ?_⟩
      · unfold nWindows
        rw [hdvd]
        have h' : t / c ≤ 2 * k := by
          have hdd := Nat.div_le_div_right (c := c) (le_of_lt hcase)
          rwa [show 2 * c * k = 2 * k * c by ring, Nat.mul_div_cancel _ hc] at hdd
        omega
      · exact Nat.div_mul_le_self t c
      · calc t < c * (t / c) + c := by
              conv_lhs => rw [← Nat.div_add_mod t c]
              exact Nat.add_lt_add_left (Nat.mod_lt t hc) _
          _ = t / c * c + c := by ring
          _ ≤ t / c * c + 2 * c := Nat.add_le_add_left (by omega) _
    · refine ⟨2 * k, ?_, ?_, ?_⟩
      · unfold nWindows
        rw [hdvd]
        omega
      · have h : 2 * k * c = 2 * c * k := by ring
        omega
      · have h : 2 * k * c + 2 * c = 2 * c * (k + 1) := by ring
        omega

/-! ## Claim theorems -/

/-- Claim C7: for any grid cell whose interpolated column has constant
temperature `T`, constant partial pressure of water vapour `e` and
constant pressure `P` over the sampling range, the computed zenith
delays equal the analytic closed forms
`wet = 1e-6 * ((k2 - k1*Rd/Rv)*(100*e/T) + k3*(100*e)/T^2) * (15000 - h) * 100`
and `dry = 1e-6 * k1*(100*P)/T * (15000 - h) * 100` centimetres, with
`h` the surface elevation: trapezoidal integration of a constant
refractivity over the 1024-point sampling from `h` to 15000 m is
exact. -/
theorem C7_integration_closed_form (nl : ℕ) (dem : Mat)
    (height temp ppwv pressure : Prof) (y x : ℕ) (T e P : ℚ)
    (hT : ∀ t, interp1d (profCol nl height y x) (profCol nl temp y x) t = T)
    (he : ∀ t, interp1d (profCol nl height y x) (profCol nl ppwv y x) t = e)
    (hP : ∀ t, interp1d (profCol nl height y x) (profCol nl pressure y x) t = P) :
    (_calculate_zenith_delay_jit nl dem height temp ppwv pressure).1 y x
      = (1 / 1000000) * ((k2 - k1 * Rd / Rv) * (100 * e / T)
          + k3 * (100 * e) / T ^ 2) * (15000 - dem y x) * 100
    ∧ (_calculate_zenith_delay_jit nl dem height temp ppwv pressure).2 y x
      = (1 / 1000000) * (k1 * (100 * P) / T) * (15000 - dem y x) * 100 := by
  have key := zenithDelayCell_const (dem y x) T e P (profCol nl height y x)
    (profCol nl temp y x) (profCol nl ppwv y x) (profCol nl pressure y x) hT he hP
  constructor
  · show (zenithDelayCell (dem y x) (profCol nl height y x) (profCol nl temp y x)
      (profCol nl ppwv y x) (profCol nl pressure y x)).1 = _
    rw [key]
  · show (zenithDelayCell (dem y x) (profCol nl height y x) (profCol nl temp y x)
      (profCol nl ppwv y x) (profCol nl pressure y x)).2 = _
    rw [key]

/-- Witness for C7 at a concrete one-level column (heights `[0]`,
temperature 280 K, water-vapour partial pressure 3 hPa, pressure
1000 hPa over a zero-elevation cell). -/
theorem C7_integration_closed_form_witness :
    (∀ t, interp1d (profCol 1 (constProf 0) 0 0) (profCol 1 (constProf 280) 0 0) t
      = 280)
    ∧ (∀ t, interp1d (profCol 1 (constProf 0) 0 0) (profCol 1 (constProf 3) 0 0) t
      = 3)
    ∧ (∀ t, interp1d (profCol 1 (constProf 0) 0 0) (profCol 1 (constProf 1000) 0 0) t
      = 1000)
    ∧ ((_calculate_zenith_delay_jit 1 (constMat 0) (constProf 0) (constProf 280)
        (constProf 3) (constProf 1000)).1 0 0
      = (1 / 1000000) * ((k2 - k1 * Rd / Rv) * (100 * 3 / 280)
          + k3 * (100 * 3) / 280 ^ 2) * (15000 - constMat 0 0 0) * 100
    ∧ (_calculate_zenith_delay_jit 1 (constMat 0) (constProf 0) (constProf 280)
        (constProf 3) (constProf 1000)).2 0 0
      = (1 / 1000000) * (k1 * (100 * 1000) / 280) * (15000 - constMat 0 0 0) * 100) :=
  have h1 : ∀ t, interp1d (profCol 1 (constProf 0) 0 0)
      (profCol 1 (constProf 280) 0 0) t = 280 :=
    fun t => interp1d_singleton 0 280 t []
  have h2 : ∀ t, interp1d (profCol 1 (constProf 0) 0 0)
      (profCol 1 (constProf 3) 0 0) t = 3 :=
    fun t => interp1d_singleton 0 3 t []
  have h3 : ∀ t, interp1d (profCol 1 (constProf 0) 0 0)
      (profCol 1 (constProf 1000) 0 0) t = 1000 :=
    fun t => interp1d_singleton 0 1000 t []
  ⟨h1, h2, h3, C7_integration_closed_form 1 (constMat 0) (constProf 0)
    (constProf 280) (constProf 3) (constProf 1000) 0 0 280 3 1000 h1 h2 h3⟩

/-- Claim C5: a patch in which both rainfall windows sum to zero skips
the pressure search: the step writes exactly the pure weather-model
correction (the full-grid per-pixel pure delays) into the window's
wet/dry outputs and NaN into both pressure-level outputs at every window
pixel, leaving all other pixels untouched. -/
theorem C5_no_rain_short_circuit (G : GridInputs) (out : DelayOutputs) (w : ℕ × ℕ)
    (hm : matSum G.p₁ G.p₂
      (subMat (w.1 * (G.p₁ / 2)) (w.2 * (G.p₂ / 2)) G.mwr) = 0)
    (hs : matSum G.p₁ G.p₂
      (subMat (w.1 * (G.p₁ / 2)) (w.2 * (G.p₂ / 2)) G.swr) = 0) :
    ∃ o, stepWindow G out w = .ok o
      ∧ (∀ i j, inWin G w i j →
          o.pmwet i j = (calculate_era_zenith_delay G.mmodel G.nl G.dem).1 i j
          ∧ o.pmdry i j = (calculate_era_zenith_delay G.mmodel G.nl G.dem).2 i j
          ∧ o.pswet i j = (calculate_era_zenith_delay G.smodel G.nl G.dem).1 i j
          ∧ o.psdry i j = (calculate_era_zenith_delay G.smodel G.nl G.dem).2 i j
          ∧ o.pm_plevels i j = none ∧ o.ps_plevels i j = none)
      ∧ (∀ i j, ¬ inWin G w i j →
          o.pmwet i j = out.pmwet i j ∧ o.pmdry i j = out.pmdry i j
          ∧ o.pswet i j = out.pswet i j ∧ o.psdry i j = out.psdry i j
          ∧ o.pm_plevels i j = out.pm_plevels i j
          ∧ o.ps_plevels i j = out.ps_plevels i j) := by
  unfold stepWindow
  rw [if_pos ⟨hm, hs⟩]
  refine ⟨_, rfl, ?_, ?_⟩
  · intro i j hin
    have hin' : w.1 * (G.p₁ / 2) ≤ i ∧ i < w.1 * (G.p₁ / 2) + G.p₁
        ∧ w.2 * (G.p₂ / 2) ≤ j ∧ j < w.2 * (G.p₂ / 2) + G.p₂ := hin
    have hi : w.1 * (G.p₁ / 2) + (i - w.1 * (G.p₁ / 2)) = i :=
      Nat.add_sub_cancel' hin'.1
    have hj : w.2 * (G.p₂ / 2) + (j - w.2 * (G.p₂ / 2)) = j :=
      Nat.add_sub_cancel' hin'.2.2.1
    have c1 := calc_sub G.mmodel G.nl G.dem (w.1 * (G.p₁ / 2)) (w.2 * (G.p₂ / 2))
      (i - w.1 * (G.p₁ / 2)) (j - w.2 * (G.p₂ / 2))
    have c2 := calc_sub G.smodel G.nl G.dem (w.1 * (G.p₁ / 2)) (w.2 * (G.p₂ / 2))
      (i - w.1 * (G.p₁ / 2)) (j - w.2 * (G.p₂ / 2))
    rw [hi, hj] at c1 c2
    refine ⟨?_, ?_, ?_, ?_, ?_, ?_⟩ <;>
      simp [writeOutputs, writeWin, hin', c1.1, c1.2, c2.1, c2.2]
  · intro i j hout
    have hout' : ¬(w.1 * (G.p₁ / 2) ≤ i ∧ i < w.1 * (G.p₁ / 2) + G.p₁
        ∧ w.2 * (G.p₂ / 2) ≤ j ∧ j < w.2 * (G.p₂ / 2) + G.p₂) := hout
    refine ⟨?_, ?_, ?_, ?_, ?_, ?_⟩ <;> simp [writeOutputs, writeWin, hout']

/-- Witness for C5 on a concrete rain-free 2 × 2 grid processed as one
window. -/
theorem C5_no_rain_short_circuit_witness :
    (matSum 2 2 (subMat 0 0 (constMat 0)) = 0
      ∧ matSum 2 2 (subMat 0 0 (constMat 0)) = 0)
    ∧ ∃ o, stepWindow
        { M := 2, N := 2, nl := 1, dem := constMat 0, ifg := constMat 0,
          mmodel := flatModel, smodel := flatModel, mwr := constMat 0,
          swr := constMat 0, min_plevel := 1000, p₁ := 2, p₂ := 2, secLook := 1 }
        initOutputs (0, 0) = .ok o :=
  ⟨⟨by simp [matSum, subMat, constMat], by simp [matSum, subMat, constMat]⟩, by
    obtain ⟨o, ho, -, -⟩ := C5_no_rain_short_circuit
      { M := 2, N := 2, nl := 1, dem := constMat 0, ifg := constMat 0,
        mmodel := flatModel, smodel := flatModel, mwr := constMat 0,
        swr := constMat 0, min_plevel := 1000, p₁ := 2, p₂ := 2, secLook := 1 }
      initOutputs (0, 0) (by simp [matSum, subMat, constMat])
      (by simp [matSum, subMat, constMat])
    exact ⟨o, ho⟩⟩

/-- Claim C6: `optim_era_delay` returns exactly the list of one record
per ordered pair of pressure levels drawn from the master profile's
levels between the top of the column (index 0) and `min_plevel`
inclusive — `(idx + 1)^2` records where `idx` is the (first) index of
`min_plevel` — with no pruning, every record's levels drawn from that
candidate set. -/
theorem C6_exhaustive_enumeration (m n nl : ℕ) (dem ifg : Mat)
    (mmodel smodel : ERAModel) (mwr swr : Mat) (min_plevel secLook : ℚ)
    (idx : ℕ)
    (hfind : findPLevelIdx nl (mmodel.pressure 0 0) min_plevel = some idx) :
    ∃ rs, optim_era_delay m n nl dem ifg mmodel smodel mwr swr min_plevel secLook
        = .ok rs
      ∧ rs = (((List.range (idx + 1)).map (mmodel.pressure 0 0)).product
          ((List.range (idx + 1)).map (mmodel.pressure 0 0))).map
          (fun q => _optim_era_delay m n nl dem ifg mmodel smodel mwr swr
            q.1 q.2 secLook)
      ∧ rs.length = (idx + 1) ^ 2
      ∧ ∀ r ∈ rs, r.master_p ∈ (List.range (idx + 1)).map (mmodel.pressure 0 0)
          ∧ r.slave_p ∈ (List.range (idx + 1)).map (mmodel.pressure 0 0) := by
  refine ⟨_, ?_, rfl, ?_, ?_⟩
  · unfold optim_era_delay
    rw [hfind]
  · have hlp : ∀ (l₁ l₂ : List ℚ), (l₁.product l₂).length = l₁.length * l₂.length :=
      fun l₁ l₂ => List.length_product l₁ l₂
    rw [List.length_map, hlp, List.length_map, List.length_range]
    ring
  · intro r hr
    obtain ⟨q, hq, rfl⟩ := List.mem_map.mp hr
    obtain ⟨q1, q2⟩ := q
    have hmem := List.pair_mem_product.mp hq
    exact ⟨hmem.1, hmem.2⟩

/-- Witness for C6: levels `[1000, 800, 600]`, `min_plevel = 600`
(index 2), giving exactly `9 = (2+1)²` candidate pairs. -/
theorem C6_exhaustive_enumeration_witness :
    findPLevelIdx 3 (threeLevelModel.pressure 0 0) 600 = some 2
    ∧ ∃ rs, optim_era_delay 2 2 3 (constMat 0) (constMat 0) threeLevelModel
        threeLevelModel (constMat 0) (constMat 0) 600 1 = .ok rs
      ∧ rs.length = 9 := by
  refine ⟨by decide, ?_⟩
  obtain ⟨rs, h1, -, h3, -⟩ := C6_exhaustive_enumeration 2 2 3 (constMat 0)
    (constMat 0) threeLevelModel threeLevelModel (constMat 0) (constMat 0) 600 1
    2 (by decide)
  exact ⟨rs, h1, h3.trans (by decide)⟩

/-- Claim C10: the minimum-pressure-level existence check of both
searches consults only the master profile's pressure column: when
`min_plevel` is an entry of the master column, no error is raised even
when it is absent from the slave column; and in the patch search the
slave's injection threshold for trial `t` is the slave's own pressure
array read at the master-derived index `t.2`. -/
theorem C10_master_only_level_check :
    (∀ (m n nl : ℕ) (dem ifg : Mat) (mmodel smodel : ERAModel) (mwr swr : Mat)
        (min_plevel secLook : ℚ) (idx : ℕ),
      findPLevelIdx nl (mmodel.pressure 0 0) min_plevel = some idx →
      findPLevelIdx nl (smodel.pressure 0 0) min_plevel = none →
      ∃ rs, optim_era_delay m n nl dem ifg mmodel smodel mwr swr min_plevel
        secLook = .ok rs)
    ∧ (∀ (I : PatchInputs) (idx : ℕ),
      findPLevelIdx I.nl (I.pmpressure 0 0) I.min_plevel = some idx →
      findPLevelIdx I.nl (I.pspressure 0 0) I.min_plevel = none →
      ∃ out, _optimise_zenith_delay I = .ok out)
    ∧ (∀ (I : PatchInputs) (humM humS : Prof) (t : ℕ × ℕ),
      I.no_slave_rain = false →
      trialEval I humM humS t = trialScore I
        (if I.no_master_rain then humM
          else injectHum humM I.pmpressure I.pmwr (I.pmpressure 0 0 t.1) 1000 10)
        (injectHum humS I.pspressure I.pswr (I.pspressure 0 0 t.2) 1000 10) t) := by
  refine ⟨?_, ?_, ?_⟩
  · intro m n nl dem ifg mmodel smodel mwr swr min_plevel secLook idx hM hS
    refine ⟨(((List.range (idx + 1)).map (mmodel.pressure 0 0)).product
      ((List.range (idx + 1)).map (mmodel.pressure 0 0))).map
      (fun q => _optim_era_delay m n nl dem ifg mmodel smodel mwr swr
        q.1 q.2 secLook), ?_⟩
    unfold optim_era_delay
    rw [hM]
  · intro I idx hM hS
    refine ⟨((trialsList I idx).foldl (step I) (initState I)).outputs, ?_⟩
    unfold _optimise_zenith_delay
    rw [hM]
  · intro I humM humS t hs
    unfold trialEval
    rw [hs]
    rfl

/-- Witness for C10: master levels `[1000, 800, 600]`, slave levels
`[999, 799, 599]`, `min_plevel = 600` — present in the master column
(index 2), absent from the slave column — and both searches succeed. -/
theorem C10_master_only_level_check_witness :
    (findPLevelIdx 3 (threeLevelModel.pressure 0 0) 600 = some 2
      ∧ findPLevelIdx 3
          (fun l => ([999, 799, 599] : List ℚ).getD l 0) 600 = none)
    ∧ (∃ rs, optim_era_delay 2 2 3 (constMat 0) (constMat 0) threeLevelModel
        { rel_hum := constProf 50, temp := constProf 280, geopot := constProf 0,
          pressure := fun _ _ l => ([999, 799, 599] : List ℚ).getD l 0 }
        (constMat 0) (constMat 0) 600 1 = .ok rs)
    ∧ (∃ out, _optimise_zenith_delay
        { p₁ := 2, p₂ := 2, nl := 3, pdem := constMat 0, pifg := constMat 0,
          pmwr := constMat 0, pswr := constMat 0, pmtemp := constProf 280,
          pmrel_hum := constProf 50,
          pmpressure := fun _ _ l => ([1000, 800, 600] : List ℚ).getD l 0,
          pmgeopot := constProf 0, pstemp := constProf 280,
          psrel_hum := constProf 50,
          pspressure := fun _ _ l => ([999, 799, 599] : List ℚ).getD l 0,
          psgeopot := constProf 0, secLook := 1, min_plevel := 600 }
        = .ok out) :=
  ⟨⟨by decide, by decide⟩,
    C10_master_only_level_check.1 2 2 3 (constMat 0) (constMat 0) threeLevelModel
      { rel_hum := constProf 50, temp := constProf 280, geopot := constProf 0,
        pressure := fun _ _ l => ([999, 799, 599] : List ℚ).getD l 0 }
      (constMat 0) (constMat 0) 600 1 2 (by decide) (by decide),
    C10_master_only_level_check.2.1
      { p₁ := 2, p₂ := 2, nl := 3, pdem := constMat 0, pifg := constMat 0,
        pmwr := constMat 0, pswr := constMat 0, pmtemp := constProf 280,
        pmrel_hum := constProf 50,
        pmpressure := fun _ _ l => ([1000, 800, 600] : List ℚ).getD l 0,
        pmgeopot := constProf 0, pstemp := constProf 280,
        psrel_hum := constProf 50,
        pspressure := fun _ _ l => ([999, 799, 599] : List ℚ).getD l 0,
        psgeopot := constProf 0, secLook := 1, min_plevel := 600 }
      2 (by decide) (by decide)⟩

/-- Counterexample to claim C3: `min_plevel = 550` is absent from the
level set `[1000, 800, 600]`, yet `patches_era_delay` on a grid whose
rainfall is identically zero completes successfully — every window takes
the no-rain short-circuit and the level check is never reached, so the
call does not fail with *LevelNotFound*. -/
theorem C3_counterexample :
    findPLevelIdx cexG3.nl (cexG3.mmodel.pressure 0 0) cexG3.min_plevel = none
    ∧ ∃ out, patches_era_delay cexG3 = .ok out := by
  constructor
  · decide
  · unfold patches_era_delay
    rw [if_neg (by decide)]
    obtain ⟨o, ho, -⟩ := fold_no_rain cexG3 rfl rfl (winsList cexG3) initOutputs
    exact ⟨o, ho⟩

/-- Claim C3 as amended: `optim_era_delay` raises *LevelNotFound* up
front whenever `min_plevel` is absent from the master column, and so
does `_optimise_zenith_delay` for its patch; `patches_era_delay`,
however, only raises it upon reaching the first patch that contains
rainfall (the whole call then fails), and never checks the level at all
when no patch contains rainfall. -/
theorem C3_amended (m n nl : ℕ) (dem ifg : Mat) (mmodel smodel : ERAModel)
    (mwr swr : Mat) (min_plevel secLook : ℚ) (I : PatchInputs) (G : GridInputs) :
    (findPLevelIdx nl (mmodel.pressure 0 0) min_plevel = none →
      optim_era_delay m n nl dem ifg mmodel smodel mwr swr min_plevel secLook
        = .error levelNotFound)
    ∧ (findPLevelIdx I.nl (I.pmpressure 0 0) I.min_plevel = none →
      _optimise_zenith_delay I = .error levelNotFound)
    ∧ (¬(G.p₁ / 2 = 0 ∨ G.p₂ / 2 = 0 ∨ G.M < G.p₁ ∨ G.N < G.p₂) →
      (∀ y x, findPLevelIdx G.nl (G.mmodel.pressure y x) G.min_plevel = none) →
      (∃ w ∈ winsList G,
        ¬(matSum G.p₁ G.p₂
            (subMat (w.1 * (G.p₁ / 2)) (w.2 * (G.p₂ / 2)) G.mwr) = 0
          ∧ matSum G.p₁ G.p₂
            (subMat (w.1 * (G.p₁ / 2)) (w.2 * (G.p₂ / 2)) G.swr) = 0)) →
      patches_era_delay G = .error levelNotFound) := by
  refine ⟨?_, ?_, ?_⟩
  · intro h
    unfold optim_era_delay
    rw [h]
  · intro h
    unfold _optimise_zenith_delay
    rw [h]
  · intro hguard hlev hrain
    unfold patches_era_delay
    rw [if_neg hguard]
    exact fold_error_of_rain G hlev (winsList G) initOutputs hrain

/-- Witness for the amended C3: a 2 × 2 grid whose single window contains
rainfall, with `min_plevel = 550` absent from the columns
`[1000, 800, 600]`: the patch call, the global call and the patch
optimiser all fail with *LevelNotFound*. -/
theorem C3_amended_witness :
    findPLevelIdx 3 (threeLevelModel.pressure 0 0) (550 : ℚ) = none
    ∧ optim_era_delay 2 2 3 (constMat 0) (constMat 0) threeLevelModel
        threeLevelModel cexRain (constMat 0) 550 1 = .error levelNotFound
    ∧ patches_era_delay
        { M := 2, N := 2, nl := 3, dem := constMat 0, ifg := constMat 0,
          mmodel := threeLevelModel, smodel := threeLevelModel, mwr := cexRain,
          swr := constMat 0, min_plevel := 550, p₁ := 2, p₂ := 2, secLook := 1 }
        = .error levelNotFound := by
  refine ⟨by decide, ?_, ?_⟩
  · exact (C3_amended 2 2 3 (constMat 0) (constMat 0) threeLevelModel
      threeLevelModel cexRain (constMat 0) 550 1 cexI cexG3).1 (by decide)
  · refine (C3_amended 2 2 3 (constMat 0) (constMat 0) threeLevelModel
      threeLevelModel cexRain (constMat 0) 550 1 cexI
      { M := 2, N := 2, nl := 3, dem := constMat 0, ifg := constMat 0,
        mmodel := threeLevelModel, smodel := threeLevelModel, mwr := cexRain,
        swr := constMat 0, min_plevel := 550, p₁ := 2, p₂ := 2,
        secLook := 1 }).2.2 (by decide)
      (fun y x =>
        (by decide :
          findPLevelIdx 3 (fun l => ([1000, 800, 600] : List ℚ).getD l 0) 550
            = none)) ?_
    refine ⟨(0, 0), by decide, ?_⟩
    intro hz
    have h1 := hz.1
    simp [matSum, subMat, cexRain, Finset.sum_range_succ] at h1

/-- Counterexample to claim C9: with patch size 5 and stride
`5 / 2 = 2`, the axis of length 10 — an exact multiple of 5 — is *not*
covered: pixel 9 lies in no window, and on the corresponding 10 × 10
grid `patches_era_delay` finishes with the pixel `(9, 9)` of its
assembled output still holding the preallocated value (`0`, not NaN),
written by no patch. -/
theorem C9_counterexample :
    (5 : ℕ) ∣ 10 ∧ ¬ coveredAx 10 5 (5 / 2) 9
    ∧ ∃ o, patches_era_delay cexG9 = .ok o ∧ o.pm_plevels 9 9 = some 0
        ∧ o.pmwet 9 9 = 0 := by
  refine ⟨by decide, by decide, ?_⟩
  unfold patches_era_delay
  rw [if_neg (by decide)]
  obtain ⟨o, ho, hpres⟩ := fold_no_rain cexG9 rfl rfl (winsList cexG9) initOutputs
  have h99 := hpres 9 9 (by decide)
  exact ⟨o, ho, h99.1, h99.2⟩

/-- Claim C9 as amended: when each patch-size component is even, positive
and divides the corresponding grid dimension, the overlapping windows of
`patches_era_delay` cover every pixel of the grid. -/
theorem C9_amended_even_coverage (G : GridInputs) (h2a : 2 ∣ G.p₁)
    (h2b : 2 ∣ G.p₂) (hpa : 0 < G.p₁) (hpb : 0 < G.p₂) (hda : G.p₁ ∣ G.M)
    (hdb : G.p₂ ∣ G.N) :
    ∀ i < G.M, ∀ j < G.N, ∃ w ∈ winsList G, inWin G w i j := by
  intro i hi j hj
  obtain ⟨wy, hwy, hy1, hy2⟩ := coveredAx_even G.M G.p₁ i h2a hpa hda hi
  obtain ⟨wx, hwx, hx1, hx2⟩ := coveredAx_even G.N G.p₂ j h2b hpb hdb hj
  exact ⟨(wy, wx),
    List.pair_mem_product.mpr ⟨List.mem_range.mpr hwy, List.mem_range.mpr hwx⟩,
    hy1, hy2, hx1, hx2⟩

/-- Witness for the amended C9 on a 4 × 4 grid with 2 × 2 patches. -/
theorem C9_amended_even_coverage_witness :
    ((2 : ℕ) ∣ 2 ∧ 0 < 2 ∧ (2 : ℕ) ∣ 4)
    ∧ ∀ i < 4, ∀ j < 4,
        ∃ w ∈ winsList
          { M := 4, N := 4, nl := 1, dem := constMat 0, ifg := constMat 0,
            mmodel := flatModel, smodel := flatModel, mwr := constMat 0,
            swr := constMat 0, min_plevel := 1000, p₁ := 2, p₂ := 2,
            secLook := 1 },
          inWin
            { M := 4, N := 4, nl := 1, dem := constMat 0, ifg := constMat 0,
              mmodel := flatModel, smodel := flatModel, mwr := constMat 0,
              swr := constMat 0, min_plevel := 1000, p₁ := 2, p₂ := 2,
              secLook := 1 } w i j :=
  ⟨⟨by decide, by decide, by decide⟩,
    C9_amended_even_coverage
      { M := 4, N := 4, nl := 1, dem := constMat 0, ifg := constMat 0,
        mmodel := flatModel, smodel := flatModel, mwr := constMat 0,
        swr := constMat 0, min_plevel := 1000, p₁ := 2, p₂ := 2, secLook := 1 }
      (by decide) (by decide) (by decide) (by decide) (by decide) (by decide)⟩

/-- Claim C2: humidity is scratch state that never leaks across trials
or back to the caller.  In the patch search, the caller's humidity
arrays survive the whole trial fold unchanged, and the recorded
outputs/best-so-far are the greedy fold of the trials each evaluated
from the caller's *original* humidity (so injections never accumulate
from one trial to the next).  In the global search every record is the
evaluation of `_optim_era_delay` on private copies of the unmutated
original models (the worker pool pickles its arguments). -/
theorem C2_humidity_frame :
    (∀ (I : PatchInputs) (ts : List (ℕ × ℕ)) (s : OptimState),
      (ts.foldl (step I) s).callerHumM = s.callerHumM
      ∧ (ts.foldl (step I) s).callerHumS = s.callerHumS)
    ∧ (∀ (I : PatchInputs) (idx : ℕ),
      (((trialsList I idx).foldl (step I) (initState I)).outputs,
        ((trialsList I idx).foldl (step I) (initState I)).max_std)
        = ((trialsList I idx).map (trialEval I I.pmrel_hum I.psrel_hum)).foldl
            greedyStep ((initState I).outputs, (⊤ : WithTop ℚ)))
    ∧ (∀ (m n nl : ℕ) (dem ifg : Mat) (mmodel smodel : ERAModel) (mwr swr : Mat)
        (min_plevel secLook : ℚ) (rs : List CandidateResult),
      optim_era_delay m n nl dem ifg mmodel smodel mwr swr min_plevel secLook
        = .ok rs →
      ∀ r ∈ rs, ∃ q : ℚ × ℚ,
        r = _optim_era_delay m n nl dem ifg mmodel smodel mwr swr
          q.1 q.2 secLook) := by
  refine ⟨?_, ?_, ?_⟩
  · intro I ts s
    exact ⟨(foldl_step_spec I ts s).1, (foldl_step_spec I ts s).2.1⟩
  · intro I idx
    exact (foldl_step_spec I (trialsList I idx) (initState I)).2.2
  · intro m n nl dem ifg mmodel smodel mwr swr min_plevel secLook rs hok r hr
    unfold optim_era_delay at hok
    cases hfind : findPLevelIdx nl (mmodel.pressure 0 0) min_plevel with
    | none =>
      rw [hfind] at hok
      exact Except.noConfusion hok
    | some idx =>
      rw [hfind] at hok
      injection hok with h
      obtain ⟨q, hq, rfl⟩ := List.mem_map.mp (h ▸ hr)
      exact ⟨q, rfl⟩

/-- Witness for C2 at a concrete 1 × 1 grid with a single level. -/
theorem C2_humidity_frame_witness :
    optim_era_delay 1 1 1 (constMat 0) (constMat 0) flatModel flatModel
        (constMat 0) (constMat 0) 1000 1
      = .ok ((((List.range 1).map (flatModel.pressure 0 0)).product
          ((List.range 1).map (flatModel.pressure 0 0))).map
          (fun q => _optim_era_delay 1 1 1 (constMat 0) (constMat 0) flatModel
            flatModel (constMat 0) (constMat 0) q.1 q.2 1))
    ∧ ∀ r ∈ (((List.range 1).map (flatModel.pressure 0 0)).product
          ((List.range 1).map (flatModel.pressure 0 0))).map
          (fun q => _optim_era_delay 1 1 1 (constMat 0) (constMat 0) flatModel
            flatModel (constMat 0) (constMat 0) q.1 q.2 1),
        ∃ q : ℚ × ℚ,
          r = _optim_era_delay 1 1 1 (constMat 0) (constMat 0) flatModel
            flatModel (constMat 0) (constMat 0) q.1 q.2 1 :=
  have hok : optim_era_delay 1 1 1 (constMat 0) (constMat 0) flatModel flatModel
      (constMat 0) (constMat 0) 1000 1
      = .ok ((((List.range 1).map (flatModel.pressure 0 0)).product
          ((List.range 1).map (flatModel.pressure 0 0))).map
          (fun q => _optim_era_delay 1 1 1 (constMat 0) (constMat 0) flatModel
            flatModel (constMat 0) (constMat 0) q.1 q.2 1)) := rfl
  ⟨hok, C2_humidity_frame.2.2 1 1 1 (constMat 0) (constMat 0) flatModel
    flatModel (constMat 0) (constMat 0) 1000 1 _ hok⟩

/-- The residual variance `_optim_era_delay` records, written out. -/
lemma _optim_era_delay_stdSq (m n nl : ℕ) (dem ifg : Mat)
    (mmodel smodel : ERAModel) (mwr swr : Mat) (a b secLook : ℚ) :
    (_optim_era_delay m n nl dem ifg mmodel smodel mwr swr a b secLook).stdSq
      = npVar m n (fun y x => ifg y x
        - (((calculate_era_zenith_delay (mmodel.add_rainfall mwr a 1000 10)
              nl dem).1 y x * secLook
            + (calculate_era_zenith_delay (mmodel.add_rainfall mwr a 1000 10)
              nl dem).2 y x * secLook)
          - ((calculate_era_zenith_delay (smodel.add_rainfall swr b 1000 10)
              nl dem).1 y x * secLook
            + (calculate_era_zenith_delay (smodel.add_rainfall swr b 1000 10)
              nl dem).2 y x * secLook))) := rfl

/-- The record of the role-swapped evaluation is the reflection of the
original record. -/
lemma _optim_era_delay_swap (m n nl : ℕ) (dem ifg : Mat)
    (mmodel smodel : ERAModel) (mwr swr : Mat) (a b secLook : ℚ) :
    _optim_era_delay m n nl dem (fun y x => -ifg y x) smodel mmodel swr mwr
        b a secLook
      = (_optim_era_delay m n nl dem ifg mmodel smodel mwr swr a b
          secLook).reflect := by
  have hstd : (_optim_era_delay m n nl dem (fun y x => -ifg y x) smodel mmodel
      swr mwr b a secLook).stdSq
      = (_optim_era_delay m n nl dem ifg mmodel smodel mwr swr a b
          secLook).stdSq := by
    rw [_optim_era_delay_stdSq, _optim_era_delay_stdSq]
    rw [show (fun y x => -ifg y x
        - (((calculate_era_zenith_delay (smodel.add_rainfall swr b 1000 10)
              nl dem).1 y x * secLook
            + (calculate_era_zenith_delay (smodel.add_rainfall swr b 1000 10)
              nl dem).2 y x * secLook)
          - ((calculate_era_zenith_delay (mmodel.add_rainfall mwr a 1000 10)
              nl dem).1 y x * secLook
            + (calculate_era_zenith_delay (mmodel.add_rainfall mwr a 1000 10)
              nl dem).2 y x * secLook)))
      = fun y x => -(ifg y x
        - (((calculate_era_zenith_delay (mmodel.add_rainfall mwr a 1000 10)
              nl dem).1 y x * secLook
            + (calculate_era_zenith_delay (mmodel.add_rainfall mwr a 1000 10)
              nl dem).2 y x * secLook)
          - ((calculate_era_zenith_delay (smodel.add_rainfall swr b 1000 10)
              nl dem).1 y x * secLook
            + (calculate_era_zenith_delay (smodel.add_rainfall swr b 1000 10)
              nl dem).2 y x * secLook))) from by
        funext y x
        ring]
    exact npVar_neg m n _
  have hext : ∀ (r r' : CandidateResult), r.master_p = r'.master_p →
      r.slave_p = r'.slave_p → r.stdSq = r'.stdSq → r = r' := by
    intro r r' h1 h2 h3
    cases r
    cases r'
    simp_all
  exact hext _ _ rfl rfl hstd

/-- Reflection is involutive. -/
lemma CandidateResult_reflect_reflect (r : CandidateResult) :
    r.reflect.reflect = r := rfl

/-- Claim C8: for every input, the role-swapped evaluation — profiles and
rainfall fields exchanged, interferogram negated, candidate levels given
in swapped order — has the same residual standard deviation as the
original; consequently, when the two profiles carry the same level
column, the full result set of the swapped global search is the
reflection (levels exchanged, std unchanged) of the original result
set. -/
theorem C8_symmetry :
    (∀ (m n nl : ℕ) (dem ifg : Mat) (mmodel smodel : ERAModel) (mwr swr : Mat)
        (a b secLook : ℚ),
      (_optim_era_delay m n nl dem (fun y x => -ifg y x) smodel mmodel swr mwr
        b a secLook).stdSq
        = (_optim_era_delay m n nl dem ifg mmodel smodel mwr swr a b
            secLook).stdSq)
    ∧ (∀ (m n nl : ℕ) (dem ifg : Mat) (mmodel smodel : ERAModel)
        (mwr swr : Mat) (min_plevel secLook : ℚ) (rs rs' : List CandidateResult),
      (∀ i, smodel.pressure 0 0 i = mmodel.pressure 0 0 i) →
      optim_era_delay m n nl dem ifg mmodel smodel mwr swr min_plevel secLook
        = .ok rs →
      optim_era_delay m n nl dem (fun y x => -ifg y x) smodel mmodel swr mwr
        min_plevel secLook = .ok rs' →
      ∀ r : CandidateResult, r ∈ rs ↔ r.reflect ∈ rs') := by
  constructor
  · intro m n nl dem ifg mmodel smodel mwr swr a b secLook
    rw [_optim_era_delay_swap]
    rfl
  · intro m n nl dem ifg mmodel smodel mwr swr min_plevel secLook rs rs'
      hlev hok hok'
    have hcol : smodel.pressure 0 0 = mmodel.pressure 0 0 := funext hlev
    unfold optim_era_delay at hok hok'
    rw [hcol] at hok'
    cases hfind : findPLevelIdx nl (mmodel.pressure 0 0) min_plevel with
    | none =>
      rw [hfind] at hok
      exact Except.noConfusion hok
    | some idx =>
      rw [hfind] at hok hok'
      injection hok with h
      injection hok' with h'
      subst h h'
      intro r
      constructor
      · intro hr
        obtain ⟨⟨qa, qb⟩, hq, rfl⟩ := List.mem_map.mp hr
        refine List.mem_map.mpr ⟨(qb, qa), ?_, ?_⟩
        · have hm := List.pair_mem_product.mp hq
          exact List.pair_mem_product.mpr ⟨hm.2, hm.1⟩
        · exact _optim_era_delay_swap m n nl dem ifg mmodel smodel mwr swr
            qa qb secLook
      · intro hr
        obtain ⟨⟨qb, qa⟩, hq, hEq⟩ := List.mem_map.mp hr
        have hswap := _optim_era_delay_swap m n nl dem ifg mmodel smodel mwr swr
          qa qb secLook
        rw [hswap] at hEq
        have hrr : _optim_era_delay m n nl dem ifg mmodel smodel mwr swr
            qa qb secLook = r := by
          have := congrArg CandidateResult.reflect hEq
          rwa [CandidateResult_reflect_reflect, CandidateResult_reflect_reflect]
            at this
        refine List.mem_map.mpr ⟨(qa, qb), ?_, hrr⟩
        have hm := List.pair_mem_product.mp hq
        exact List.pair_mem_product.mpr ⟨hm.2, hm.1⟩

/-- Witness for C8's reflection clause at a concrete 1 × 1 grid. -/
theorem C8_symmetry_witness :
    (∀ i : ℕ, flatModel.pressure 0 0 i = flatModel.pressure 0 0 i)
    ∧ ∀ r : CandidateResult,
        (r ∈ (((List.range 1).map (flatModel.pressure 0 0)).product
            ((List.range 1).map (flatModel.pressure 0 0))).map
            (fun q => _optim_era_delay 1 1 1 (constMat 0) (constMat 0) flatModel
              flatModel (constMat 0) (constMat 0) q.1 q.2 1)
          ↔ r.reflect ∈ (((List.range 1).map (flatModel.pressure 0 0)).product
            ((List.range 1).map (flatModel.pressure 0 0))).map
            (fun q => _optim_era_delay 1 1 1 (constMat 0)
              (fun y x => -(constMat 0 : Mat) y x) flatModel flatModel
              (constMat 0) (constMat 0) q.1 q.2 1)) :=
  ⟨fun _ => rfl,
    C8_symmetry.2 1 1 1 (constMat 0) (constMat 0) flatModel flatModel
      (constMat 0) (constMat 0) 1000 1 _ _ (fun _ => rfl) rfl rfl⟩

/-- Claim C4: strict-improvement acceptance.  Per step, a candidate's
delay fields and pressure levels are recorded iff its residual standard
deviation is strictly below the best so far (ties are rejected), and
consequently the patch optimiser returns the outputs of the *first*
candidate in iteration order attaining the minimal residual standard
deviation. -/
theorem C4_strict_improvement (I : PatchInputs) (idx : ℕ)
    (hfind : findPLevelIdx I.nl (I.pmpressure 0 0) I.min_plevel = some idx) :
    (∀ (s : OptimState) (t : ℕ × ℕ),
      ((((trialEval I s.callerHumM s.callerHumS t).var : WithTop ℚ) < s.max_std →
        (step I s t).outputs
            = candOutputs (trialEval I s.callerHumM s.callerHumS t)
          ∧ (step I s t).max_std
            = ((trialEval I s.callerHumM s.callerHumS t).var : WithTop ℚ))
      ∧ (¬(((trialEval I s.callerHumM s.callerHumS t).var : WithTop ℚ)
            < s.max_std) →
        (step I s t).outputs = s.outputs
          ∧ (step I s t).max_std = s.max_std)))
    ∧ ∃ out, _optimise_zenith_delay I = .ok out
      ∧ ∃ k : ℕ, ∃ hk : k < ((trialsList I idx).map
            (trialEval I I.pmrel_hum I.psrel_hum)).length,
          out = candOutputs (((trialsList I idx).map
            (trialEval I I.pmrel_hum I.psrel_hum)).get ⟨k, hk⟩)
          ∧ (∀ l : ℕ, ∀ hl : l < ((trialsList I idx).map
                (trialEval I I.pmrel_hum I.psrel_hum)).length,
              (((trialsList I idx).map
                (trialEval I I.pmrel_hum I.psrel_hum)).get ⟨k, hk⟩).var
                ≤ (((trialsList I idx).map
                  (trialEval I I.pmrel_hum I.psrel_hum)).get ⟨l, hl⟩).var)
          ∧ (∀ l : ℕ, ∀ hl : l < ((trialsList I idx).map
                (trialEval I I.pmrel_hum I.psrel_hum)).length, l < k →
              (((trialsList I idx).map
                (trialEval I I.pmrel_hum I.psrel_hum)).get ⟨k, hk⟩).var
                < (((trialsList I idx).map
                  (trialEval I I.pmrel_hum I.psrel_hum)).get ⟨l, hl⟩).var) := by
  constructor
  · intro s t
    rw [step_spec]
    constructor
    · intro h
      show (greedyStep (s.outputs, s.max_std)
        (trialEval I s.callerHumM s.callerHumS t)).1 = _
        ∧ (greedyStep (s.outputs, s.max_std)
          (trialEval I s.callerHumM s.callerHumS t)).2 = _
      unfold greedyStep
      rw [if_pos h]
      exact ⟨rfl, rfl⟩
    · intro h
      show (greedyStep (s.outputs, s.max_std)
        (trialEval I s.callerHumM s.callerHumS t)).1 = _
        ∧ (greedyStep (s.outputs, s.max_std)
          (trialEval I s.callerHumM s.callerHumS t)).2 = _
      unfold greedyStep
      rw [if_neg h]
      exact ⟨rfl, rfl⟩
  · have hlp : ∀ {α β : Type} (l₁ : List α) (l₂ : List β),
        (l₁.product l₂).length = l₁.length * l₂.length :=
      fun l₁ l₂ => List.length_product l₁ l₂
    have hne : ((trialsList I idx).map (trialEval I I.pmrel_hum I.psrel_hum))
        ≠ [] := by
      intro h
      have hlen := congrArg List.length h
      simp only [List.length_map, List.length_nil] at hlen
      unfold trialsList at hlen
      rw [hlp, List.length_range, List.length_range] at hlen
      simp [Nat.mul_eq_zero] at hlen
    have hspec := (foldl_step_spec I (trialsList I idx) (initState I)).2.2
    rcases greedy_foldl_spec ((trialsList I idx).map
        (trialEval I I.pmrel_hum I.psrel_hum)) (initState I).outputs ⊤ with
      ⟨h2, h1, hall⟩ | ⟨k, hk, h1, h2, hlt, hle, hfirst⟩
    · exfalso
      cases hcs : (trialsList I idx).map (trialEval I I.pmrel_hum I.psrel_hum) with
      | nil => exact hne hcs
      | cons c cs' =>
        exact absurd (WithTop.coe_lt_top c.var)
          (hall c (hcs ▸ List.mem_cons_self c cs'))
    · refine ⟨((trialsList I idx).foldl (step I) (initState I)).outputs, ?_,
        k, hk, ?_, ?_, ?_⟩
      · unfold _optimise_zenith_delay
        rw [hfind]
      · have ho : ((trialsList I idx).foldl (step I) (initState I)).outputs
            = (((trialsList I idx).map (trialEval I I.pmrel_hum I.psrel_hum)).foldl
                greedyStep ((initState I).outputs, (⊤ : WithTop ℚ))).1 :=
          congrArg Prod.fst hspec
        rw [ho]
        exact h1
      · intro l hl
        exact WithTop.coe_le_coe.mp (h2 ▸ hle l hl)
      · intro l hl hlk
        exact WithTop.coe_lt_coe.mp (h2 ▸ hfirst l hl hlk)

/-- Witness for C4 at a concrete one-cell, one-level patch. -/
theorem C4_strict_improvement_witness :
    findPLevelIdx 1 (constProf 1000 0 0) (1000 : ℚ) = some 0
    ∧ ∃ out, _optimise_zenith_delay
        { p₁ := 1, p₂ := 1, nl := 1, pdem := constMat 0, pifg := constMat 0,
          pmwr := constMat 0, pswr := constMat 0, pmtemp := constProf 280,
          pmrel_hum := constProf 50, pmpressure := constProf 1000,
          pmgeopot := constProf 0, pstemp := constProf 280,
          psrel_hum := constProf 50, pspressure := constProf 1000,
          psgeopot := constProf 0, secLook := 1, min_plevel := 1000 }
        = .ok out := by
  refine ⟨by decide, ?_⟩
  obtain ⟨out, hout, -⟩ := (C4_strict_improvement
    { p₁ := 1, p₂ := 1, nl := 1, pdem := constMat 0, pifg := constMat 0,
      pmwr := constMat 0, pswr := constMat 0, pmtemp := constProf 280,
      pmrel_hum := constProf 50, pmpressure := constProf 1000,
      pmgeopot := constProf 0, pstemp := constProf 280,
      psrel_hum := constProf 50, pspressure := constProf 1000,
      psgeopot := constProf 0, secLook := 1, min_plevel := 1000 }
    0 (by decide)).2
  exact ⟨out, hout⟩

/-- Claim C1 as amended: for a patch containing rainfall, the finally
recorded delay fields are those of an *injected* candidate whose residual
standard deviation is minimal among all injected candidates.  Because
the best-so-far standard deviation is initialised to `np.inf` (the line
seeding it from the pure correction is commented out in the source) and
the pure correction is not among the candidates when rainfall is
present, the recorded residual standard deviation is *not* in general
bounded by the pure correction's. -/
theorem C1_amended (I : PatchInputs) (idx : ℕ)
    (hfind : findPLevelIdx I.nl (I.pmpressure 0 0) I.min_plevel = some idx)
    (_hrain : ¬(matSum I.p₁ I.p₂ I.pmwr = 0 ∧ matSum I.p₁ I.p₂ I.pswr = 0)) :
    ∃ out, _optimise_zenith_delay I = .ok out
      ∧ ∃ k : ℕ, ∃ hk : k < ((trialsList I idx).map
            (trialEval I I.pmrel_hum I.psrel_hum)).length,
          out = candOutputs (((trialsList I idx).map
            (trialEval I I.pmrel_hum I.psrel_hum)).get ⟨k, hk⟩)
          ∧ ∀ l : ℕ, ∀ hl : l < ((trialsList I idx).map
                (trialEval I I.pmrel_hum I.psrel_hum)).length,
              (((trialsList I idx).map
                (trialEval I I.pmrel_hum I.psrel_hum)).get ⟨k, hk⟩).var
                ≤ (((trialsList I idx).map
                  (trialEval I I.pmrel_hum I.psrel_hum)).get ⟨l, hl⟩).var := by
  have hlp : ∀ {α β : Type} (l₁ : List α) (l₂ : List β),
      (l₁.product l₂).length = l₁.length * l₂.length :=
    fun l₁ l₂ => List.length_product l₁ l₂
  have hne : ((trialsList I idx).map (trialEval I I.pmrel_hum I.psrel_hum))
      ≠ [] := by
    intro h
    have hlen := congrArg List.length h
    simp only [List.length_map, List.length_nil] at hlen
    unfold trialsList at hlen
    rw [hlp, List.length_range, List.length_range] at hlen
    simp [Nat.mul_eq_zero] at hlen
  have hspec := (foldl_step_spec I (trialsList I idx) (initState I)).2.2
  rcases greedy_foldl_spec ((trialsList I idx).map
      (trialEval I I.pmrel_hum I.psrel_hum)) (initState I).outputs ⊤ with
    ⟨h2, h1, hall⟩ | ⟨k, hk, h1, h2, hlt, hle, hfirst⟩
  · exfalso
    cases hcs : (trialsList I idx).map (trialEval I I.pmrel_hum I.psrel_hum) with
    | nil => exact hne hcs
    | cons c cs' =>
      exact absurd (WithTop.coe_lt_top c.var)
        (hall c (hcs ▸ List.mem_cons_self c cs'))
  · refine ⟨((trialsList I idx).foldl (step I) (initState I)).outputs, ?_,
      k, hk, ?_, ?_⟩
    · unfold _optimise_zenith_delay
      rw [hfind]
    · have ho : ((trialsList I idx).foldl (step I) (initState I)).outputs
          = (((trialsList I idx).map (trialEval I I.pmrel_hum I.psrel_hum)).foldl
              greedyStep ((initState I).outputs, (⊤ : WithTop ℚ))).1 :=
        congrArg Prod.fst hspec
      rw [ho]
      exact h1
    · intro l hl
      exact WithTop.coe_le_coe.mp (h2 ▸ hle l hl)

/-- Witness for the amended C1 at the concrete rainy patch `cexI`. -/
theorem C1_amended_witness :
    (findPLevelIdx cexI.nl (cexI.pmpressure 0 0) cexI.min_plevel = some 0
      ∧ ¬(matSum cexI.p₁ cexI.p₂ cexI.pmwr = 0
        ∧ matSum cexI.p₁ cexI.p₂ cexI.pswr = 0))
    ∧ ∃ out, _optimise_zenith_delay cexI = .ok out := by
  have hr : ¬(matSum cexI.p₁ cexI.p₂ cexI.pmwr = 0
      ∧ matSum cexI.p₁ cexI.p₂ cexI.pswr = 0) := by
    simp [cexI, matSum, cexRain, constMat, Finset.sum_range_succ]
  refine ⟨⟨by decide, hr⟩, ?_⟩
  obtain ⟨out, hout, -⟩ := C1_amended cexI 0 (by decide) hr
  exact ⟨out, hout⟩

/-- From `np.inf` every candidate is accepted. -/
lemma greedyStep_top (o : DelayOutputs) (c : TrialCand) :
    greedyStep (o, (⊤ : WithTop ℚ)) c = (candOutputs c, (c.var : WithTop ℚ)) := by
  unfold greedyStep
  rw [if_pos (WithTop.coe_lt_top _)]

/-- Counterexample to claim C1: on the rainy 2 × 2 patch `cexI` — zero
interferogram, perfectly matching flat profiles, rainfall at one master
cell — the pure correction has residual variance 0, but the best-so-far
standard deviation starts at `np.inf`, so the single injected candidate
is accepted unconditionally and the recorded delay fields have residual
variance strictly *greater* than the pure correction's: the final
recorded standard deviation is not ≤ the pure one. -/
theorem C1_counterexample :
    ¬(matSum cexI.p₁ cexI.p₂ cexI.pmwr = 0
      ∧ matSum cexI.p₁ cexI.p₂ cexI.pswr = 0)
    ∧ _optimise_zenith_delay cexI = .ok cexOut
    ∧ npVar 2 2 (cexResidual cexOut) > npVar 2 2 (correction_init cexI) := by
  have hrain : ¬(matSum cexI.p₁ cexI.p₂ cexI.pmwr = 0
      ∧ matSum cexI.p₁ cexI.p₂ cexI.pswr = 0) := by
    simp [cexI, matSum, cexRain, constMat, Finset.sum_range_succ]
  have hnm : cexI.no_master_rain = false := by
    simp [PatchInputs.no_master_rain, cexI, matSum, cexRain, constMat,
      Finset.sum_range_succ]
  have hns : cexI.no_slave_rain = true := by
    simp [PatchInputs.no_slave_rain, cexI, matSum, constMat]
  have htr : trialsList cexI 0 = [(0, 0)] := by
    unfold trialsList
    rw [hnm, hns]
    rfl
  have hopt : _optimise_zenith_delay cexI
      = .ok ((step cexI (initState cexI) (0, 0)).outputs) := by
    unfold _optimise_zenith_delay
    rw [show findPLevelIdx cexI.nl (cexI.pmpressure 0 0) cexI.min_plevel
      = some 0 from by decide]
    show Except.ok ((trialsList cexI 0).foldl (step cexI) (initState cexI)).outputs
      = _
    rw [htr]
    simp only [List.foldl_cons, List.foldl_nil]
  have hTE : trialEval cexI cexI.pmrel_hum cexI.psrel_hum (0, 0)
      = trialScore cexI
          (injectHum cexI.pmrel_hum cexI.pmpressure cexI.pmwr
            (cexI.pmpressure 0 0 0) 1000 10)
          cexI.psrel_hum (0, 0) := by
    unfold trialEval
    rw [hnm, hns]
    rfl
  have houts : (step cexI (initState cexI) (0, 0)).outputs = cexOut := by
    rw [step_spec]
    show (greedyStep ((initState cexI).outputs, (⊤ : WithTop ℚ))
      (trialEval cexI cexI.pmrel_hum cexI.psrel_hum (0, 0))).1 = cexOut
    rw [greedyStep_top]
    rfl
  set hM : Prof := injectHum cexI.pmrel_hum cexI.pmpressure cexI.pmwr
    (cexI.pmpressure 0 0 0) 1000 10 with hhM
  have hum : ∀ y x : ℕ, hM y x 0 = if y = 0 ∧ x = 0 then 60 else 50 := by
    intro y x
    show injectHum (constProf 50) (constProf 1000) cexRain 1000 1000 10 y x 0 = _
    by_cases h : y = 0 ∧ x = 0
    · norm_num [injectHum, cexRain, constProf, h, min_def]
    · norm_num [injectHum, cexRain, constProf, h]
  have e1 : ∀ y x : ℕ, cexOut.pmwet y x
      = (calculate_era_zenith_delay (mModelWith cexI hM) 1 cexI.pdem).1 y x := by
    intro y x
    show (candOutputs (trialEval cexI cexI.pmrel_hum cexI.psrel_hum
      (0, 0))).pmwet y x = _
    rw [hTE]
    rfl
  have e2 : ∀ y x : ℕ, cexOut.pmdry y x
      = (calculate_era_zenith_delay (mModelWith cexI hM) 1 cexI.pdem).2 y x := by
    intro y x
    show (candOutputs (trialEval cexI cexI.pmrel_hum cexI.psrel_hum
      (0, 0))).pmdry y x = _
    rw [hTE]
    rfl
  have e3 : ∀ y x : ℕ, cexOut.pswet y x
      = (calculate_era_zenith_delay (sModelWith cexI cexI.psrel_hum) 1
          cexI.pdem).1 y x := by
    intro y x
    show (candOutputs (trialEval cexI cexI.pmrel_hum cexI.psrel_hum
      (0, 0))).pswet y x = _
    rw [hTE]
    rfl
  have e4 : ∀ y x : ℕ, cexOut.psdry y x
      = (calculate_era_zenith_delay (sModelWith cexI cexI.psrel_hum) 1
          cexI.pdem).2 y x := by
    intro y x
    show (candOutputs (trialEval cexI cexI.pmrel_hum cexI.psrel_hum
      (0, 0))).psdry y x = _
    rw [hTE]
    rfl
  have hres : ∀ y x : ℕ, cexResidual cexOut y x
      = ((1 / 1000000) * ((k2 - k1 * Rd / Rv) * (100 * (50 * satVapour / 100) / 280)
            + k3 * (100 * (50 * satVapour / 100)) / 280 ^ 2) * (15000 - 0) * 100)
        - ((1 / 1000000) * ((k2 - k1 * Rd / Rv)
              * (100 * (hM y x 0 * satVapour / 100) / 280)
            + k3 * (100 * (hM y x 0 * satVapour / 100)) / 280 ^ 2)
            * (15000 - 0) * 100) := by
    intro y x
    have hwM : (calculate_era_zenith_delay (mModelWith cexI hM) 1 cexI.pdem).1 y x
        = (1 / 1000000) * ((k2 - k1 * Rd / Rv)
              * (100 * (hM y x 0 * satVapour / 100) / 280)
            + k3 * (100 * (hM y x 0 * satVapour / 100)) / 280 ^ 2)
            * (15000 - 0) * 100 :=
      (calc_one_level (mModelWith cexI hM) cexI.pdem y x).1
    have hdM : (calculate_era_zenith_delay (mModelWith cexI hM) 1 cexI.pdem).2 y x
        = (1 / 1000000) * (k1 * (100 * 1000) / 280) * (15000 - 0) * 100 :=
      (calc_one_level (mModelWith cexI hM) cexI.pdem y x).2
    have hwS : (calculate_era_zenith_delay (sModelWith cexI cexI.psrel_hum) 1
          cexI.pdem).1 y x
        = (1 / 1000000) * ((k2 - k1 * Rd / Rv)
              * (100 * (50 * satVapour / 100) / 280)
            + k3 * (100 * (50 * satVapour / 100)) / 280 ^ 2)
            * (15000 - 0) * 100 :=
      (calc_one_level (sModelWith cexI cexI.psrel_hum) cexI.pdem y x).1
    have hdS : (calculate_era_zenith_delay (sModelWith cexI cexI.psrel_hum) 1
          cexI.pdem).2 y x
        = (1 / 1000000) * (k1 * (100 * 1000) / 280) * (15000 - 0) * 100 :=
      (calc_one_level (sModelWith cexI cexI.psrel_hum) cexI.pdem y x).2
    show cexI.pifg y x
        - ((cexOut.pmwet y x + cexOut.pmdry y x)
          - (cexOut.pswet y x + cexOut.psdry y x)) = _
    rw [e1 y x, e2 y x, e3 y x, e4 y x, hwM, hdM, hwS, hdS]
    show (0 : ℚ) - _ = _
    ring
  have hz : ∀ y x : ℕ, correction_init cexI y x = 0 := by
    intro y x
    have hEq : correction_init cexI y x
        = cexI.pifg y x
          - (((initDelays cexI).1.1 y x + (initDelays cexI).1.2 y x)
            - ((initDelays cexI).1.1 y x + (initDelays cexI).1.2 y x)) := rfl
    rw [hEq]
    simp [cexI, constMat]
  have hcor : correction_init cexI = fun _ _ => (0 : ℚ) :=
    funext fun y => funext fun x => hz y x
  have hpure0 : npVar 2 2 (correction_init cexI) = 0 := by
    rw [hcor]
    simp [npVar, matSum]
  have hfun : cexResidual cexOut = fun y x =>
      if y = 0 ∧ x = 0 then
        ((1 / 1000000) * ((k2 - k1 * Rd / Rv) * (100 * (50 * satVapour / 100) / 280)
            + k3 * (100 * (50 * satVapour / 100)) / 280 ^ 2) * (15000 - 0) * 100)
        - ((1 / 1000000) * ((k2 - k1 * Rd / Rv) * (100 * (60 * satVapour / 100) / 280)
            + k3 * (100 * (60 * satVapour / 100)) / 280 ^ 2) * (15000 - 0) * 100)
      else 0 := by
    funext y x
    rw [hres y x, hum y x]
    by_cases h : y = 0 ∧ x = 0
    · rw [if_pos h, if_pos h]
    · rw [if_neg h, if_neg h]
      ring
  refine ⟨hrain, hopt.trans (congrArg Except.ok houts), ?_⟩
  rw [hpure0, hfun]
  simp only [npVar, matSum, Finset.sum_range_succ, Finset.sum_range_zero]
  norm_num [k1, k2, k3, Rd, Rv, satVapour]

end Pysarts
